import Mathlib

/-!
Verification of the save-persistence, geometry, clock, materializer and
accounting layers of the gptroleplayweb backend.

The definitions below are shallow embeddings of the Python sources:

* section 1: JSON documents and the content-addressed save store
  (src/backend/app/core/storage.py);
* section 2: the fantasy calendar clock (world_service._clock_to_datetime,
  world_service._advance_clock);
* section 3: map geometry (_enforce_non_overlap, _fit_offset_in_radius,
  _distance3d_m) over the reals, which idealize the Python floats;
* section 4: the area materializer and role pool engine
  (_ensure_area_snapshot, _ensure_role_pool_from_area), the sub-zone move
  operation (move_to_sub_zone) and the ability-check outcome rule
  (action_check);
* section 5: the token-usage ledger (src/backend/app/core/token_usage.py).
-/

/-! ## Section 1: JSON values and the save store -/

/-- A JSON document, the shape of the payload dictionaries that
storage.py reads and writes. Objects are ordered key-value field lists,
as produced by json.loads and dict construction in the source. -/
inductive Json where
  | null
  | bool (b : Bool)
  | num (n : Int)
  | str (s : String)
  | arr (items : List Json)
  | obj (fields : List (String × Json))

mutual

/-- Structural equality test for JSON documents. -/
def Json.beq : Json → Json → Bool
  | .null, .null => true
  | .bool a, .bool b => a == b
  | .num a, .num b => a == b
  | .str a, .str b => a == b
  | .arr xs, .arr ys => Json.beqList xs ys
  | .obj xs, .obj ys => Json.beqFields xs ys
  | _, _ => false

/-- Equality test for JSON array elements. -/
def Json.beqList : List Json → List Json → Bool
  | [], [] => true
  | x :: xs, y :: ys => Json.beq x y && Json.beqList xs ys
  | _, _ => false

/-- Equality test for JSON object field lists. -/
def Json.beqFields : List (String × Json) → List (String × Json) → Bool
  | [], [] => true
  | (k, v) :: xs, (k2, v2) :: ys => k == k2 && Json.beq v v2 && Json.beqFields xs ys
  | _, _ => false

end

mutual

theorem Json.beq_iff : ∀ a b : Json, Json.beq a b = true ↔ a = b
  | .null, b => by cases b <;> simp [Json.beq]
  | .bool a, b => by cases b <;> simp [Json.beq]
  | .num a, b => by cases b <;> simp [Json.beq]
  | .str a, b => by cases b <;> simp [Json.beq]
  | .arr xs, b => by
      cases b <;> simp [Json.beq]
      exact Json.beqList_iff xs _
  | .obj xs, b => by
      cases b <;> simp [Json.beq]
      exact Json.beqFields_iff xs _

theorem Json.beqList_iff : ∀ xs ys : List Json, Json.beqList xs ys = true ↔ xs = ys
  | [], ys => by cases ys <;> simp [Json.beqList]
  | x :: xs, ys => by
      cases ys with
      | nil => simp [Json.beqList]
      | cons y ys =>
        simp [Json.beqList, Bool.and_eq_true, Json.beq_iff x y, Json.beqList_iff xs ys]

theorem Json.beqFields_iff :
    ∀ xs ys : List (String × Json), Json.beqFields xs ys = true ↔ xs = ys
  | [], ys => by cases ys <;> simp [Json.beqFields]
  | (k, v) :: xs, ys => by
      cases ys with
      | nil => simp [Json.beqFields]
      | cons p ys =>
        obtain ⟨k2, v2⟩ := p
        simp [Json.beqFields, Bool.and_eq_true, Json.beq_iff v v2, Json.beqFields_iff xs ys,
          and_assoc]

end

instance : DecidableEq Json := fun a b =>
  decidable_of_iff (Json.beq a b = true) (Json.beq_iff a b)

/-- Lookup of a key in an ordered association list, mirroring a lookup in a
Python dict whose keys are pairwise distinct (every dict the store builds or
parses has distinct keys). -/
def alookup {α : Type} (l : List (String × α)) (k : String) : Option α :=
  (l.find? (fun p => p.1 == k)).map (fun p => p.2)

/-- Store a key-value binding in an association list, overwriting an existing
binding for the key, mirroring a Python dict assignment or a file write that
replaces the content at a path. -/
def aset {α : Type} : List (String × α) → String → α → List (String × α)
  | [], k, v => [(k, v)]
  | (k2, v2) :: rest, k, v =>
      if k2 == k then (k, v) :: rest else (k2, v2) :: aset rest k v

/-- The dict.get access on a JSON object with a default, as used by
_assemble_bundle; on a non-object the packed parts written by the store are
never non-objects, so the default is returned. -/
def jgetD (j : Json) (k : String) (d : Json) : Json :=
  match j with
  | .obj fields => (alookup fields k).getD d
  | _ => d

/-- A save payload carrying all ten fields of a valid Save document, the
shape produced by SaveFile.model_dump in the source. write_save_payload
reads exactly these ten keys from the payload dict (each with a default
that never fires on a valid save), so valid payloads are modelled as a
structure. -/
structure SavePayload where
  version : Json
  session_id : Json
  updated_at : Json
  game_log_settings : Json
  map_snapshot : Json
  area_snapshot : Json
  player_static_data : Json
  player_runtime_data : Json
  game_logs : Json
  role_pool : Json
deriving DecidableEq

/-- The meta part body built by write_save_payload. -/
def metaBody (p : SavePayload) : Json :=
  .obj [("version", p.version), ("session_id", p.session_id),
        ("updated_at", p.updated_at), ("game_log_settings", p.game_log_settings)]

/-- The player_data part body built by write_save_payload. -/
def playerDataBody (p : SavePayload) : Json :=
  .obj [("player_static_data", p.player_static_data),
        ("player_runtime_data", p.player_runtime_data)]

/-- The game_logs part body built by write_save_payload. -/
def gameLogsBody (p : SavePayload) : Json :=
  .obj [("items", p.game_logs)]

/-- The role_pool part body built by write_save_payload. -/
def rolePoolBody (p : SavePayload) : Json :=
  .obj [("items", p.role_pool)]

/-- The six named save parts with their relative file names and bodies, in
the iteration order of the parts dict of write_save_payload. -/
def saveParts (p : SavePayload) : List (String × String × Json) :=
  [("meta", "meta.json", metaBody p),
   ("map_snapshot", "map_snapshot.json", p.map_snapshot),
   ("area_snapshot", "area_snapshot.json", p.area_snapshot),
   ("player_data", "player_data.json", playerDataBody p),
   ("game_logs", "game_logs.json", gameLogsBody p),
   ("role_pool", "role_pool.json", rolePoolBody p)]

/-- The content digest _json_hash: the SHA-256 hex digest of the canonical
JSON dump of the body. The cryptographic digest is modelled by the body
itself, an injective stand-in that preserves exactly the property the store
relies on: two bodies have equal digests precisely when their canonical
serializations agree. -/
def jsonHash (body : Json) : Json := body

/-- The manifest.json document of a save bundle, with its format marker,
per-part relative paths and per-part content digests. -/
structure Manifest where
  format : String
  version : Nat
  updated_at : Json
  parts : List (String × String)
  hashes : List (String × Json)
deriving DecidableEq

/-- The durable state at one canonical save location: the bundle directory
(manifest plus part files keyed by relative path) and the thin pointer file
at the save path itself. The source derives the bundle directory name from
the save path; a single location is modelled, so the directory is implicit. -/
structure Disk where
  manifest : Option Manifest
  files : List (String × Json)
  pointer : Option Json
deriving DecidableEq

/-- _load_bundle_manifest: the manifest is usable only when present with the
expected format marker. -/
def loadManifest (d : Disk) : Option Manifest :=
  match d.manifest with
  | some m => if m.format = "save_bundle_v1" then some m else none
  | none => none

/-- One step of the part-writing loop of write_save_payload: a part whose
recorded digest matches the new digest and whose file already exists is
skipped; otherwise the part file is (re)written and the part name recorded
as written. The loop also accumulates the new hashes and part map
unconditionally; those accumulators do not depend on the branch and are
computed separately by canonicalHashes and canonicalPartsMap. -/
def writePartStep (oldHashes : List (String × Json))
    (st : List (String × Json) × List String) (part : String × String × Json) :
    List (String × Json) × List String :=
  let (files, written) := st
  let (name, rel, body) := part
  let digest := jsonHash body
  if alookup oldHashes name = some digest ∧ (alookup files rel).isSome then
    (files, written)
  else
    (aset files rel body, written ++ [name])

/-- The new_hashes dict accumulated by the write loop. -/
def canonicalHashes (p : SavePayload) : List (String × Json) :=
  (saveParts p).map (fun part => (part.1, jsonHash part.2.2))

/-- The part_map dict accumulated by the write loop. -/
def canonicalPartsMap (p : SavePayload) : List (String × String) :=
  (saveParts p).map (fun part => (part.1, part.2.1))

/-- The hashes recorded by the manifest found at the location, or empty when
no loadable manifest exists, as computed at the top of the write loop. -/
def oldHashesOf (d : Disk) : List (String × Json) :=
  match loadManifest d with
  | some m => m.hashes
  | none => []

/-- The manifest document written by write_save_payload for a payload. -/
def canonicalManifest (p : SavePayload) : Manifest :=
  { format := "save_bundle_v1", version := 1, updated_at := p.updated_at,
    parts := canonicalPartsMap p, hashes := canonicalHashes p }

/-- The pointer document written by write_save_payload at the save path. -/
def pointerBody (p : SavePayload) : Json :=
  .obj [("format", .str "save_bundle_v1"), ("version", .num 1),
        ("bundle_dir", .str "current-save.json.bundle"),
        ("session_id", p.session_id), ("updated_at", p.updated_at)]

/-- write_save_payload: split the payload into six parts, rewrite only the
parts whose digest changed or whose file is missing, then write the manifest
and the pointer file. Returns the new disk state together with the names of
the part files that were physically rewritten (the manifest and pointer are
always rewritten). -/
def writeSavePayload (d : Disk) (p : SavePayload) : Disk × List String :=
  let fw := (saveParts p).foldl (writePartStep (oldHashesOf d)) (d.files, [])
  ({ manifest := some (canonicalManifest p), files := fw.1,
     pointer := some (pointerBody p) }, fw.2)

/-- The result of read_save_payload: no save at the location, a malformed
bundle (a ValueError or a missing part file in the source), a legacy flat
document read from the pointer path, or an assembled bundle payload. -/
inductive ReadResult where
  | absent
  | malformed (msg : String)
  | legacy (doc : Json)
  | payload (p : SavePayload)
deriving DecidableEq

/-- The _read_part helper of _assemble_bundle: resolve the relative path of
a named part and read its file; a part missing from the manifest falls back
to the given default when one exists and is an error otherwise; a recorded
part whose file is absent is a read error. -/
def readPart (m : Manifest) (files : List (String × Json)) (name : String)
    (deflt : Option Json) : Except String Json :=
  match alookup m.parts name with
  | some rel =>
      match alookup files rel with
      | some content => .ok content
      | none => .error ("missing part file: " ++ rel)
  | none =>
      match deflt with
      | some dft => .ok dft
      | none => .error ("missing save bundle part: " ++ name)

/-- _assemble_bundle: read the six parts and reassemble the ten-field save
payload, applying the same defaults as the source. -/
def assembleBundle (m : Manifest) (files : List (String × Json)) :
    Except String SavePayload := do
  let meta ← readPart m files "meta" none
  let mapSnap ← readPart m files "map_snapshot" none
  let areaSnap ← readPart m files "area_snapshot" none
  let playerData ← readPart m files "player_data" none
  let gameLogs ← readPart m files "game_logs" none
  let rolePool ← readPart m files "role_pool" (some (.obj [("items", .arr [])]))
  return { version := jgetD meta "version" (.str "1.1.0"),
           session_id := jgetD meta "session_id" (.str "sess_default"),
           updated_at := jgetD meta "updated_at" .null,
           game_log_settings := jgetD meta "game_log_settings" (.obj []),
           map_snapshot := mapSnap,
           area_snapshot := areaSnap,
           player_static_data := jgetD playerData "player_static_data" (.obj []),
           player_runtime_data := jgetD playerData "player_runtime_data" (.obj []),
           game_logs := jgetD gameLogs "items" (.arr []),
           role_pool := jgetD rolePool "items" (.arr []) }

/-- read_save_payload: prefer the bundle form; if the bundle manifest is
absent or carries the wrong format marker, fall back to the pointer file,
returning it as a legacy flat document (the pointer of a well-formed
location names this very bundle directory, whose manifest load already
failed, so the pointer-follow branch of the source also lands on the raw
document). -/
def readSavePayload (d : Disk) : ReadResult :=
  match loadManifest d with
  | some m =>
      match assembleBundle m d.files with
      | .ok p => .payload p
      | .error e => .malformed e
  | none =>
      match d.pointer with
      | none => .absent
      | some raw => .legacy raw

/-- The fixed association of part names to relative file paths used by every
write. -/
def partRels : List (String × String) :=
  [("meta", "meta.json"),
   ("map_snapshot", "map_snapshot.json"),
   ("area_snapshot", "area_snapshot.json"),
   ("player_data", "player_data.json"),
   ("game_logs", "game_logs.json"),
   ("role_pool", "role_pool.json")]

/-- A location is hash-consistent when, for every canonical part file that
exists on disk and has a digest recorded in a loadable manifest, the recorded
digest is the digest of the stored content. Every state left behind by
write_save_payload has this property; it can only be broken by outside
modification of the bundle. -/
def hashConsistent (d : Disk) : Prop :=
  ∀ m, loadManifest d = some m →
    ∀ pr ∈ partRels, ∀ h c, alookup m.hashes pr.1 = some h →
      alookup d.files pr.2 = some c → jsonHash c = h

theorem alookup_cons {α : Type} (k2 : String) (v2 : α) (rest : List (String × α)) (k : String) :
    alookup ((k2, v2) :: rest) k = if k2 = k then some v2 else alookup rest k := by
  by_cases h : k2 = k <;> simp [alookup, List.find?_cons, h]

theorem alookup_aset {α : Type} (l : List (String × α)) (k k2 : String) (v : α) :
    alookup (aset l k v) k2 = if k2 = k then some v else alookup l k2 := by
  induction l with
  | nil =>
      simp only [aset]
      rw [alookup_cons]
      by_cases h : k2 = k
      · simp [h]
      · simp [h, Ne.symm h, alookup]
  | cons p rest ih =>
      obtain ⟨k3, v3⟩ := p
      simp only [aset]
      by_cases hk3 : k3 = k
      · subst hk3
        simp only [beq_self_eq_true, if_true]
        rw [alookup_cons, alookup_cons]
        by_cases h : k2 = k3
        · simp [h]
        · simp [h, Ne.symm h]
      · have hbeq : (k3 == k) = false := by simp [hk3]
        simp only [hbeq, Bool.false_eq_true, if_false]
        rw [alookup_cons, alookup_cons, ih]
        by_cases h : k2 = k3
        · subst h
          simp [hk3]
        · by_cases h2 : k2 = k <;> simp [h, Ne.symm h, h2, hk3]

theorem writeFold_lookup_notmem (oldH : List (String × Json)) :
    ∀ (P : List (String × String × Json)) (F0 : List (String × Json)) (W0 : List String)
      (r : String), (∀ q ∈ P, q.2.1 ≠ r) →
      alookup ((P.foldl (writePartStep oldH) (F0, W0)).1) r = alookup F0 r := by
  intro P
  induction P with
  | nil => intro F0 W0 r _; rfl
  | cons q rest ih =>
      intro F0 W0 r hr
      obtain ⟨n, rel, body⟩ := q
      have hrel : rel ≠ r := hr _ (List.mem_cons_self _ _)
      have hrest : ∀ q2 ∈ rest, q2.2.1 ≠ r := fun q2 hq2 => hr q2 (List.mem_cons_of_mem _ hq2)
      simp only [List.foldl_cons, writePartStep]
      split
      · exact ih _ _ _ hrest
      · rw [ih _ _ _ hrest, alookup_aset]
        simp [Ne.symm hrel]

theorem writeFold_lookup (oldH : List (String × Json)) :
    ∀ (P : List (String × String × Json)) (F0 : List (String × Json)) (W0 : List String),
      (P.map (fun q => q.2.1)).Nodup →
      ∀ q ∈ P,
        alookup ((P.foldl (writePartStep oldH) (F0, W0)).1) q.2.1 = some q.2.2 ∨
        (alookup oldH q.1 = some (jsonHash q.2.2) ∧
          alookup ((P.foldl (writePartStep oldH) (F0, W0)).1) q.2.1 = alookup F0 q.2.1 ∧
          (alookup F0 q.2.1).isSome) := by
  intro P
  induction P with
  | nil => intro F0 W0 _ q hq; cases hq
  | cons q0 rest ih =>
      intro F0 W0 hnd q hq
      obtain ⟨n, rel, body⟩ := q0
      have hnotmem : ∀ q2 ∈ rest, q2.2.1 ≠ rel := by
        intro q2 hq2
        have := (List.nodup_cons.mp hnd).1
        intro hcontra
        exact this (hcontra ▸ List.mem_map_of_mem (fun z => z.2.1) hq2)
      rcases List.mem_cons.mp hq with hq | hq
      · subst hq
        simp only [List.foldl_cons, writePartStep]
        split
        · rename_i hskip
          right
          refine ⟨hskip.1, ?_, hskip.2⟩
          exact writeFold_lookup_notmem oldH rest F0 W0 rel hnotmem
        · left
          rw [writeFold_lookup_notmem oldH rest _ _ rel hnotmem, alookup_aset]
          simp
      · have hnd2 := (List.nodup_cons.mp hnd).2
        simp only [List.foldl_cons, writePartStep]
        split
        · exact ih F0 W0 hnd2 q hq
        · rcases ih (aset F0 rel body) (W0 ++ [n]) hnd2 q hq with h | ⟨h1, h2, h3⟩
          · exact Or.inl h
          · right
            have hne : q.2.1 ≠ rel := by
              have := (List.nodup_cons.mp hnd).1
              intro hcontra
              exact this (hcontra ▸ List.mem_map_of_mem (fun z => z.2.1) hq)
            rw [alookup_aset] at h2 h3
            simp [hne] at h2 h3
            exact ⟨h1, h2, h3⟩

theorem writeFold_written (oldH : List (String × Json)) :
    ∀ (P : List (String × String × Json)) (F0 : List (String × Json)) (W0 : List String),
      (P.map (fun q => q.2.1)).Nodup →
      (P.foldl (writePartStep oldH) (F0, W0)).2 =
        W0 ++ (P.filter (fun q =>
          !decide (alookup oldH q.1 = some (jsonHash q.2.2) ∧
            (alookup F0 q.2.1).isSome))).map (fun q => q.1) := by
  intro P
  induction P with
  | nil => intro F0 W0 _; simp
  | cons q0 rest ih =>
      intro F0 W0 hnd
      obtain ⟨n, rel, body⟩ := q0
      have hnd2 := (List.nodup_cons.mp hnd).2
      have hnotmem : ∀ q2 ∈ rest, q2.2.1 ≠ rel := by
        intro q2 hq2
        have := (List.nodup_cons.mp hnd).1
        intro hcontra
        exact this (hcontra ▸ List.mem_map_of_mem (fun z => z.2.1) hq2)
      simp only [List.foldl_cons, writePartStep]
      split
      · rename_i hskip
        rw [ih F0 W0 hnd2, List.filter_cons_of_neg]
        simp only [Bool.not_eq_true, Bool.not_eq_true', decide_eq_false_iff_not, not_not]
        exact hskip
      · rename_i hskip
        rw [ih (aset F0 rel body) (W0 ++ [n]) hnd2]
        have hfilter : rest.filter (fun q =>
            !decide (alookup oldH q.1 = some (jsonHash q.2.2) ∧
              (alookup (aset F0 rel body) q.2.1).isSome)) =
          rest.filter (fun q =>
            !decide (alookup oldH q.1 = some (jsonHash q.2.2) ∧
              (alookup F0 q.2.1).isSome)) := by
          apply List.filter_congr
          intro q2 hq2
          rw [alookup_aset]
          simp [hnotmem q2 hq2]
        rw [hfilter, List.filter_cons_of_pos, List.map_cons, List.append_assoc,
          List.singleton_append]
        simp only [decide_eq_true_eq, Bool.not_eq_true', decide_eq_false_iff_not]
        exact hskip

theorem saveParts_rels_nodup (p : SavePayload) :
    ((saveParts p).map (fun q => q.2.1)).Nodup := by
  simp [saveParts]

theorem write_file_content (d : Disk) (p : SavePayload) (hcons : hashConsistent d)
    (name rel : String) (body : Json)
    (hmem : (name, rel, body) ∈ saveParts p) (hpr : (name, rel) ∈ partRels) :
    alookup (writeSavePayload d p).1.files rel = some body := by
  have hfold := writeFold_lookup (oldHashesOf d) (saveParts p) d.files []
    (saveParts_rels_nodup p) (name, rel, body) hmem
  have hfiles : (writeSavePayload d p).1.files =
      ((saveParts p).foldl (writePartStep (oldHashesOf d)) (d.files, [])).1 := rfl
  rw [hfiles]
  rcases hfold with h | ⟨h1, h2, h3⟩
  · exact h
  · obtain ⟨c, hc⟩ := Option.isSome_iff_exists.mp h3
    cases hm : loadManifest d with
    | none => rw [oldHashesOf, hm] at h1; simp [alookup] at h1
    | some m =>
        rw [oldHashesOf, hm] at h1
        have hkey := hcons m hm (name, rel) hpr (jsonHash body) c h1 hc
        rw [h2, hc]
        simpa [jsonHash] using congrArg some hkey

/-- C1, amended form: writing a valid save payload and reading it back
returns the payload unchanged, on every location whose existing bundle is
hash-consistent. -/
theorem save_round_trip_consistent (d : Disk) (p : SavePayload)
    (hcons : hashConsistent d) :
    readSavePayload (writeSavePayload d p).1 = ReadResult.payload p := by
  have hmeta := write_file_content d p hcons "meta" "meta.json" (metaBody p)
    (by simp [saveParts]) (by simp [partRels])
  have hmap := write_file_content d p hcons "map_snapshot" "map_snapshot.json" p.map_snapshot
    (by simp [saveParts]) (by simp [partRels])
  have harea := write_file_content d p hcons "area_snapshot" "area_snapshot.json" p.area_snapshot
    (by simp [saveParts]) (by simp [partRels])
  have hplayer := write_file_content d p hcons "player_data" "player_data.json" (playerDataBody p)
    (by simp [saveParts]) (by simp [partRels])
  have hlogs := write_file_content d p hcons "game_logs" "game_logs.json" (gameLogsBody p)
    (by simp [saveParts]) (by simp [partRels])
  have hpool := write_file_content d p hcons "role_pool" "role_pool.json" (rolePoolBody p)
    (by simp [saveParts]) (by simp [partRels])
  have hload : loadManifest (writeSavePayload d p).1 = some (canonicalManifest p) := by
    simp [loadManifest, writeSavePayload, canonicalManifest]
  simp only [readSavePayload, hload]
  simp only [assembleBundle, readPart, canonicalManifest, canonicalPartsMap, saveParts,
    List.map_cons, List.map_nil, alookup_cons, reduceIte, String.reduceEq,
    hmeta, hmap, harea, hplayer, hlogs, hpool,
    metaBody, playerDataBody, gameLogsBody, rolePoolBody, jgetD]
  rfl

/-- A small concrete valid save payload used for the C1 scenarios. -/
def c1Payload : SavePayload :=
  { version := .str "9.9.9", session_id := .str "sess_x", updated_at := .null,
    game_log_settings := .obj [], map_snapshot := .obj [("zones", .arr [])],
    area_snapshot := .obj [], player_static_data := .obj [],
    player_runtime_data := .obj [], game_logs := .arr [], role_pool := .arr [] }

/-- The manifest of the tampered location of the C1 counterexample. -/
def c1TamperedManifest : Manifest :=
  { format := "save_bundle_v1", version := 1, updated_at := Json.null,
    parts := partRels, hashes := canonicalHashes c1Payload }

/-- A location whose bundle manifest records exactly the digests that
writing c1Payload would produce, while the part files on disk hold different
(stale) content: a hash-inconsistent bundle. -/
def c1TamperedDisk : Disk :=
  { manifest := some c1TamperedManifest,
    files := [("meta.json", .str "stale"), ("map_snapshot.json", .str "stale"),
              ("area_snapshot.json", .str "stale"), ("player_data.json", .str "stale"),
              ("game_logs.json", .str "stale"), ("role_pool.json", .str "stale")],
    pointer := none }

/-- C1, counterexample: at a location whose manifest digests match the
incoming payload while the part files hold different content, the write
skips every part and the subsequent read does not return the written
payload, so the unconditional round-trip claim fails. -/
theorem claim_c1_counterexample :
    readSavePayload (writeSavePayload c1TamperedDisk c1Payload).1 ≠
      ReadResult.payload c1Payload := by
  have hold : oldHashesOf c1TamperedDisk = canonicalHashes c1Payload := by
    simp [oldHashesOf, loadManifest, c1TamperedDisk, c1TamperedManifest]
  have hfiles : (writeSavePayload c1TamperedDisk c1Payload).1.files = c1TamperedDisk.files := by
    show ((saveParts c1Payload).foldl (writePartStep (oldHashesOf c1TamperedDisk))
      (c1TamperedDisk.files, [])).1 = c1TamperedDisk.files
    rw [hold]
    simp [saveParts, writePartStep, canonicalHashes, alookup_cons, jsonHash,
      c1TamperedDisk, alookup, c1Payload, metaBody, playerDataBody, gameLogsBody, rolePoolBody]
  have hload : loadManifest (writeSavePayload c1TamperedDisk c1Payload).1 =
      some (canonicalManifest c1Payload) := by
    simp [loadManifest, writeSavePayload, canonicalManifest]
  intro h
  rw [readSavePayload, hload] at h
  simp only [assembleBundle, readPart, canonicalManifest, canonicalPartsMap, saveParts,
    List.map_cons, List.map_nil, alookup_cons, reduceIte, String.reduceEq, hfiles] at h
  simp [c1TamperedDisk, alookup, jgetD, c1Payload, Bind.bind, Except.bind, pure,
    Except.pure] at h

/-- A location with no save at all. -/
def emptyDisk : Disk := { manifest := none, files := [], pointer := none }

/-- C1, amended: for every valid Save document S and every location whose
existing bundle is hash-consistent (each part digest recorded in a loadable
manifest matches the stored part content, as is the case for every state
write_save_payload itself leaves behind), writing S and then reading the
location returns a payload equal to S, with every field of the save
recovered unchanged. -/
theorem claim_c1_save_round_trip (d : Disk) (p : SavePayload)
    (hcons : hashConsistent d) :
    readSavePayload (writeSavePayload d p).1 = ReadResult.payload p :=
  save_round_trip_consistent d p hcons

theorem claim_c1_save_round_trip_witness :
    hashConsistent emptyDisk ∧
      readSavePayload (writeSavePayload emptyDisk c1Payload).1 =
        ReadResult.payload c1Payload := by
  have hc : hashConsistent emptyDisk := by
    intro m hm
    simp [loadManifest, emptyDisk] at hm
  exact ⟨hc, claim_c1_save_round_trip emptyDisk c1Payload hc⟩

theorem write_file_present (d : Disk) (p : SavePayload) (name rel : String) (body : Json)
    (hmem : (name, rel, body) ∈ saveParts p) :
    (alookup (writeSavePayload d p).1.files rel).isSome := by
  have hfiles : (writeSavePayload d p).1.files =
      ((saveParts p).foldl (writePartStep (oldHashesOf d)) (d.files, [])).1 := rfl
  rcases writeFold_lookup (oldHashesOf d) (saveParts p) d.files []
      (saveParts_rels_nodup p) (name, rel, body) hmem with h | ⟨_, h2, h3⟩
  · rw [hfiles, h]; rfl
  · rw [hfiles, h2]; exact h3

/-- C2: after a save S is persisted as a bundle, writing a save that agrees
with S on every field except game_logs (and differs there) physically
rewrites exactly the game_logs part among the six part files, while the
manifest is refreshed with the game_logs digest changed and the digests
recorded for the five untouched parts identical to those of the previous
manifest. -/
theorem claim_c2_incremental_write (d0 : Disk) (S S2 : SavePayload)
    (hv : S2.version = S.version) (hs : S2.session_id = S.session_id)
    (hu : S2.updated_at = S.updated_at) (hg : S2.game_log_settings = S.game_log_settings)
    (hm : S2.map_snapshot = S.map_snapshot) (ha : S2.area_snapshot = S.area_snapshot)
    (hps : S2.player_static_data = S.player_static_data)
    (hpr : S2.player_runtime_data = S.player_runtime_data)
    (hrp : S2.role_pool = S.role_pool)
    (hgl : S2.game_logs ≠ S.game_logs) :
    (writeSavePayload (writeSavePayload d0 S).1 S2).2 = ["game_logs"] ∧
    ∀ name ∈ (["meta", "map_snapshot", "area_snapshot", "player_data", "role_pool"] :
        List String),
      ((writeSavePayload (writeSavePayload d0 S).1 S2).1.manifest.bind
        (fun mf => alookup mf.hashes name)) =
      ((writeSavePayload d0 S).1.manifest.bind (fun mf => alookup mf.hashes name)) := by
  have hmetaEq : metaBody S2 = metaBody S := by
    simp [metaBody, hv, hs, hu, hg]
  have hplayerEq : playerDataBody S2 = playerDataBody S := by
    simp [playerDataBody, hps, hpr]
  have hpoolEq : rolePoolBody S2 = rolePoolBody S := by
    simp [rolePoolBody, hrp]
  have hlogsNe : gameLogsBody S2 ≠ gameLogsBody S := by
    simp [gameLogsBody, hgl]
  have hold : oldHashesOf (writeSavePayload d0 S).1 = canonicalHashes S := by
    simp [oldHashesOf, loadManifest, writeSavePayload, canonicalManifest]
  constructor
  · have hwr : (writeSavePayload (writeSavePayload d0 S).1 S2).2 =
        ((saveParts S2).foldl (writePartStep (oldHashesOf (writeSavePayload d0 S).1))
          ((writeSavePayload d0 S).1.files, [])).2 := rfl
    rw [hwr, hold,
      writeFold_written (canonicalHashes S) (saveParts S2) (writeSavePayload d0 S).1.files []
        (saveParts_rels_nodup S2)]
    have p1 := write_file_present d0 S "meta" "meta.json" (metaBody S) (by simp [saveParts])
    have p2 := write_file_present d0 S "map_snapshot" "map_snapshot.json" S.map_snapshot
      (by simp [saveParts])
    have p3 := write_file_present d0 S "area_snapshot" "area_snapshot.json" S.area_snapshot
      (by simp [saveParts])
    have p4 := write_file_present d0 S "player_data" "player_data.json" (playerDataBody S)
      (by simp [saveParts])
    have p6 := write_file_present d0 S "role_pool" "role_pool.json" (rolePoolBody S)
      (by simp [saveParts])
    simp only [saveParts, List.filter_cons, List.filter_nil]
    have hlogsNe2 : ¬gameLogsBody S = gameLogsBody S2 := fun hh => hlogsNe hh.symm
    simp [canonicalHashes, saveParts, alookup_cons, jsonHash,
      hmetaEq, hplayerEq, hpoolEq, hlogsNe, hlogsNe2, hm, ha,
      p1, p2, p3, p4, p6]
  · intro name hname
    have hnew : (writeSavePayload (writeSavePayload d0 S).1 S2).1.manifest =
        some (canonicalManifest S2) := rfl
    have holdm : (writeSavePayload d0 S).1.manifest = some (canonicalManifest S) := rfl
    rw [hnew, holdm]
    fin_cases hname <;>
      simp [canonicalManifest, canonicalHashes, saveParts, alookup_cons, jsonHash,
        hmetaEq, hplayerEq, hpoolEq, hm, ha]

/-- A concrete base save payload for the C2 witness. -/
def c2BaseSave : SavePayload :=
  { version := .str "1.1.0", session_id := .str "sess_a", updated_at := .null,
    game_log_settings := .obj [], map_snapshot := .obj [], area_snapshot := .obj [],
    player_static_data := .obj [], player_runtime_data := .obj [],
    game_logs := .arr [], role_pool := .arr [] }

/-- The same save with one appended game log entry. -/
def c2LogsSave : SavePayload :=
  { version := .str "1.1.0", session_id := .str "sess_a", updated_at := .null,
    game_log_settings := .obj [], map_snapshot := .obj [], area_snapshot := .obj [],
    player_static_data := .obj [], player_runtime_data := .obj [],
    game_logs := .arr [.str "moved"], role_pool := .arr [] }

theorem claim_c2_incremental_write_witness :
    c2LogsSave.game_logs ≠ c2BaseSave.game_logs ∧
    (writeSavePayload (writeSavePayload emptyDisk c2BaseSave).1 c2LogsSave).2 =
      ["game_logs"] ∧
    ∀ name ∈ (["meta", "map_snapshot", "area_snapshot", "player_data", "role_pool"] :
        List String),
      ((writeSavePayload (writeSavePayload emptyDisk c2BaseSave).1 c2LogsSave).1.manifest.bind
        (fun mf => alookup mf.hashes name)) =
      ((writeSavePayload emptyDisk c2BaseSave).1.manifest.bind
        (fun mf => alookup mf.hashes name)) := by
  have hne : c2LogsSave.game_logs ≠ c2BaseSave.game_logs := by
    simp [c2BaseSave, c2LogsSave]
  have h := claim_c2_incremental_write emptyDisk c2BaseSave c2LogsSave
    rfl rfl rfl rfl rfl rfl rfl rfl rfl hne
  exact ⟨hne, h.1, h.2⟩

/-! ## Section 2: the fantasy calendar clock -/

/-- The WorldClock record of the schemas: calendar tag plus calendar fields,
all unconstrained integers in a persisted save, plus an update timestamp. -/
structure WorldClock where
  calendar : String
  year : Int
  month : Int
  day : Int
  hour : Int
  minute : Int
  updated_at : String
deriving DecidableEq

/-- A proleptic-Gregorian calendar datetime with in-range fields, the
abstraction of the Python datetime values that _clock_to_datetime and
_advance_clock pass around. -/
structure DT where
  year : Nat
  month : Nat
  day : Nat
  hour : Nat
  minute : Nat
deriving DecidableEq

/-- The Gregorian leap-year rule used by the Python datetime module. -/
def isLeapYear (y : Nat) : Bool :=
  (y % 4 == 0 && y % 100 != 0) || y % 400 == 0

/-- Days in a month of the proleptic Gregorian calendar; month 0 is a
sentinel with zero days, used only to ground the cumulative sum. -/
def daysInMonth (y m : Nat) : Nat :=
  if m = 1 then 31
  else if m = 2 then (if isLeapYear y then 29 else 28)
  else if m = 3 then 31
  else if m = 4 then 30
  else if m = 5 then 31
  else if m = 6 then 30
  else if m = 7 then 31
  else if m = 8 then 31
  else if m = 9 then 30
  else if m = 10 then 31
  else if m = 11 then 30
  else if m = 12 then 31
  else 0

/-- Days in the months strictly before month m of year y. -/
def daysBeforeMonth (y : Nat) : Nat → Nat
  | 0 => 0
  | m + 1 => daysBeforeMonth y m + daysInMonth y m

/-- Number of leap years in the interval from year 1 to year y - 1. -/
def leapCount (y : Nat) : Nat :=
  (y - 1) / 4 - (y - 1) / 100 + (y - 1) / 400

/-- Absolute day index of a datetime, counting day zero as January 1 of
year 1. -/
def toAbsDays (d : DT) : Nat :=
  365 * (d.year - 1) + leapCount d.year + daysBeforeMonth d.year d.month + (d.day - 1)

/-- Absolute minute index of a datetime: the instant it denotes. -/
def toAbsMin (d : DT) : Nat :=
  (toAbsDays d * 24 + d.hour) * 60 + d.minute

/-- The datetime fields are mutually consistent calendar data. -/
def ValidDT (d : DT) : Prop :=
  1 ≤ d.year ∧ 1 ≤ d.month ∧ d.month ≤ 12 ∧ 1 ≤ d.day ∧
    d.day ≤ daysInMonth d.year d.month ∧ d.hour ≤ 23 ∧ d.minute ≤ 59

instance (d : DT) : Decidable (ValidDT d) := by
  unfold ValidDT; infer_instance

/-- Advance a datetime by one minute, carrying through hours, days, months
and years exactly as Gregorian datetime addition does. -/
def addMinute (d : DT) : DT :=
  if d.minute < 59 then { d with minute := d.minute + 1 }
  else if d.hour < 23 then { d with minute := 0, hour := d.hour + 1 }
  else if d.day < daysInMonth d.year d.month then
    { d with minute := 0, hour := 0, day := d.day + 1 }
  else if d.month < 12 then
    { d with minute := 0, hour := 0, day := 1, month := d.month + 1 }
  else
    { year := d.year + 1, month := 1, day := 1, hour := 0, minute := 0 }

/-- Advance a datetime by n minutes: the timedelta addition of the source,
expressed as iterated single-minute steps. -/
def addMinutes (d : DT) : Nat → DT
  | 0 => d
  | n + 1 => addMinute (addMinutes d n)

/-- _clock_to_datetime: clamp every clock field into the ranges the Python
datetime constructor accepts, with the day capped at 28. -/
def clampClock (c : WorldClock) : DT :=
  { year := (max c.year 1).toNat,
    month := (min (max c.month 1) 12).toNat,
    day := (min (max c.day 1) 28).toNat,
    hour := (min (max c.hour 0) 23).toNat,
    minute := (min (max c.minute 0) 59).toNat }

/-- The instant a clock denotes: its conversion to an absolute datetime by
_clock_to_datetime, measured in absolute minutes. -/
def clockInstant (c : WorldClock) : Nat :=
  toAbsMin (clampClock c)

/-- _default_world_clock: year 1024, March 14, 09:30. -/
def defaultWorldClock (now : String) (calendar : String) : WorldClock :=
  { calendar := calendar, year := 1024, month := 3, day := 14, hour := 9,
    minute := 30, updated_at := now }

/-- _advance_clock: convert the clock (or the default clock when absent) to
a datetime, add the non-negative part of the requested minutes, and read the
resulting calendar fields back into a WorldClock. -/
def advanceClock (now : String) (c : Option WorldClock) (deltaMin : Int) : WorldClock :=
  let base := c.getD (defaultWorldClock now "fantasy_default")
  let dt := addMinutes (clampClock base) (max deltaMin 0).toNat
  { calendar := base.calendar, year := (dt.year : Int), month := (dt.month : Int),
    day := (dt.day : Int), hour := (dt.hour : Int), minute := (dt.minute : Int),
    updated_at := now }

/-- The absolute minute denoted by the calendar fields of a clock read
directly as a real calendar date, without the day re-clamping of
_clock_to_datetime. Meaningful for clocks whose fields are genuine calendar
data, as is the case for every clock produced by _advance_clock. -/
def clockRawInstant (c : WorldClock) : Nat :=
  toAbsMin { year := c.year.toNat, month := c.month.toNat, day := c.day.toNat,
             hour := c.hour.toNat, minute := c.minute.toNat }

theorem daysInMonth_ge (y m : Nat) (h1 : 1 ≤ m) (h2 : m ≤ 12) :
    28 ≤ daysInMonth y m := by
  interval_cases m <;> simp only [daysInMonth] <;> norm_num <;> split_ifs <;> omega

theorem leapCount_succ (y : Nat) (hy : 1 ≤ y) :
    leapCount (y + 1) = leapCount y + (if isLeapYear y then 1 else 0) := by
  have h4 : y / 4 = (y - 1) / 4 + if 4 ∣ y then 1 else 0 := by
    conv_lhs => rw [show y = (y - 1) + 1 by omega]
    rw [Nat.succ_div, show y - 1 + 1 = y by omega]
  have h100 : y / 100 = (y - 1) / 100 + if 100 ∣ y then 1 else 0 := by
    conv_lhs => rw [show y = (y - 1) + 1 by omega]
    rw [Nat.succ_div, show y - 1 + 1 = y by omega]
  have h400 : y / 400 = (y - 1) / 400 + if 400 ∣ y then 1 else 0 := by
    conv_lhs => rw [show y = (y - 1) + 1 by omega]
    rw [Nat.succ_div, show y - 1 + 1 = y by omega]
  rcases Bool.eq_false_or_eq_true (isLeapYear y) with hl | hl <;>
    · have hl2 := hl
      simp only [isLeapYear, Bool.or_eq_true, Bool.and_eq_true, beq_iff_eq,
        bne_iff_ne, Bool.or_eq_false_iff, Bool.and_eq_false_iff,
        Bool.not_eq_true, beq_eq_false_iff_ne, bne_eq_false_iff_eq, ne_eq] at hl2
      simp only [leapCount, Nat.add_sub_cancel, hl, if_true, if_false,
        Bool.false_eq_true]
      rw [h4, h100, h400]
      split_ifs <;> omega

theorem addMinute_step (d : DT) (h : ValidDT d) :
    toAbsMin (addMinute d) = toAbsMin d + 1 ∧ ValidDT (addMinute d) := by
  obtain ⟨hy, hm1, hm2, hd1, hd2, hh, hmin⟩ := h
  unfold addMinute
  split
  · rename_i hlt
    constructor
    · simp only [toAbsMin, toAbsDays]
      omega
    · unfold ValidDT
      dsimp only
      omega
  · rename_i hge
    split
    · rename_i hhlt
      constructor
      · simp only [toAbsMin, toAbsDays]
        omega
      · unfold ValidDT
        dsimp only
        omega
    · rename_i hhge
      split
      · rename_i hdlt
        constructor
        · simp only [toAbsMin, toAbsDays]
          omega
        · unfold ValidDT
          dsimp only
          omega
      · rename_i hdge
        split
        · rename_i hmlt
          have hdbm : daysBeforeMonth d.year (d.month + 1) =
              daysBeforeMonth d.year d.month + daysInMonth d.year d.month := rfl
          have hdimnext := daysInMonth_ge d.year (d.month + 1) (by omega) (by omega)
          constructor
          · simp only [toAbsMin, toAbsDays, hdbm]
            omega
          · unfold ValidDT
            dsimp only
            omega
        · rename_i hmge
          have hm12 : d.month = 12 := by omega
          have hday31 : d.day = 31 := by
            rw [hm12] at hdge hd2
            have hdim12 : daysInMonth d.year 12 = 31 := rfl
            omega
          have hdbm12 : daysBeforeMonth d.year 12 =
              334 + (if isLeapYear d.year then 1 else 0) := by
            show daysBeforeMonth d.year 12 = _
            simp only [daysBeforeMonth, daysInMonth]
            norm_num
            split_ifs <;> omega
          have hleap := leapCount_succ d.year hy
          have hdbm1 : daysBeforeMonth (d.year + 1) 1 = 0 := by
            simp [daysBeforeMonth, daysInMonth]
          constructor
          · simp only [toAbsMin, toAbsDays, hm12, hday31, hdbm12]
            rw [hdbm1, hleap]
            split_ifs <;> omega
          · unfold ValidDT
            dsimp only
            have hdim1 : daysInMonth (d.year + 1) 1 = 31 := rfl
            omega

theorem addMinutes_steps (d : DT) (h : ValidDT d) (n : Nat) :
    toAbsMin (addMinutes d n) = toAbsMin d + n ∧ ValidDT (addMinutes d n) := by
  induction n with
  | zero => exact ⟨rfl, h⟩
  | succ k ih =>
      have hstep := addMinute_step (addMinutes d k) ih.2
      exact ⟨by rw [addMinutes, hstep.1, ih.1]; omega, hstep.2⟩

/-- A clock at the end of January 28, used to exhibit the clamping
regression of the clock instant. -/
def c5Clock : WorldClock :=
  { calendar := "fantasy_default", year := 1024, month := 1, day := 28,
    hour := 23, minute := 59, updated_at := "t0" }

/-- C5, counterexample: advancing the clock at 1024-01-28 23:59 by one
minute yields the clock 1024-01-29 00:00, whose conversion back through
_clock_to_datetime re-clamps the day to 28, so the claimed instant moves
backward by almost a day even though the advance amount is non-negative. -/
theorem claim_c5_counterexample :
    (0 : Int) ≤ 1 ∧
      clockInstant (advanceClock "t1" (some c5Clock) 1) < clockInstant c5Clock := by
  constructor
  · decide
  · show toAbsMin (clampClock (advanceClock "t1" (some c5Clock) 1)) <
      toAbsMin (clampClock c5Clock)
    decide

/-- C5, amended: for every world clock c and every number of minutes
m >= 0, the clock produced by _advance_clock carries the calendar fields of
instant(c) + m, so reading those fields as an absolute datetime never goes
below instant(c); the instant obtained by re-converting the advanced clock
through the day-clamping _clock_to_datetime, however, can be smaller than
instant(c) when the advance crosses day 28 of a month. -/
theorem claim_c5_clock_monotonic (now : String) (c : WorldClock) (m : Int)
    (hm : 0 ≤ m) :
    clockInstant c ≤ clockRawInstant (advanceClock now (some c) m) := by
  have hvalid : ValidDT (clampClock c) := by
    unfold ValidDT clampClock
    dsimp only
    refine ⟨by omega, by omega, by omega, by omega, ?_, by omega, by omega⟩
    have h28 := daysInMonth_ge (max c.year 1).toNat (min (max c.month 1) 12).toNat
      (by omega) (by omega)
    omega
  have hsteps := addMinutes_steps (clampClock c) hvalid (max m 0).toNat
  unfold clockInstant clockRawInstant advanceClock
  dsimp only [Option.getD]
  simp only [Int.toNat_natCast]
  rw [hsteps.1]
  omega

theorem claim_c5_clock_monotonic_witness :
    (0 : Int) ≤ 480 ∧
      clockInstant c5Clock ≤ clockRawInstant (advanceClock "t1" (some c5Clock) 480) :=
  ⟨by decide, claim_c5_clock_monotonic "t1" c5Clock 480 (by decide)⟩

/-! ## Section 3: map geometry over the reals -/

/-- Python round applied to a real number: round half to even. The Python
floats of the source are idealized as reals throughout this section. -/
noncomputable def pyRound (x : ℝ) : Int :=
  if x - ⌊x⌋ < 1 / 2 then ⌊x⌋
  else if 1 / 2 < x - ⌊x⌋ then ⌊x⌋ + 1
  else if Even ⌊x⌋ then ⌊x⌋ else ⌊x⌋ + 1

/-- Python int() applied to a real number: truncation toward zero. -/
noncomputable def pyTrunc (x : ℝ) : Int :=
  if 0 ≤ x then ⌊x⌋ else -⌊-x⌋

theorem pyRound_intCast (n : Int) : pyRound (n : ℝ) = n := by
  unfold pyRound
  rw [Int.floor_intCast]
  norm_num

theorem pyTrunc_intCast (n : Int) : pyTrunc (n : ℝ) = n := by
  unfold pyTrunc
  split
  · exact Int.floor_intCast n
  · rw [show -(n : ℝ) = ((-n : Int) : ℝ) by push_cast; ring, Int.floor_intCast]
    ring

theorem abs_pyRound_sub (x : ℝ) : |(pyRound x : ℝ) - x| ≤ 1 / 2 := by
  have hfl := Int.floor_le x
  have hfu := Int.lt_floor_add_one x
  unfold pyRound
  split
  · rename_i h
    rw [abs_le]
    constructor <;> linarith
  · rename_i h
    push_neg at h
    split
    · rename_i h2
      rw [abs_le]
      push_cast
      constructor <;> linarith
    · rename_i h2
      push_neg at h2
      have hhalf : x - ⌊x⌋ = 1 / 2 := le_antisymm h2 h
      split <;>
        · rw [abs_le]
          push_cast
          constructor <;> linarith

/-- A sub-zone seed of an authored zone: a name plus a coordinate offset
from the zone center. -/
structure ZoneSubZoneSeed where
  name : String
  offset_x : Int
  offset_y : Int
  offset_z : Int
  description : String
deriving DecidableEq

/-- An authoring-level map zone as in the schemas: center coordinates,
radius, classification and sub-zone seeds. -/
structure Zone where
  zone_id : String
  name : String
  x : Int
  y : Int
  z : Int
  zone_type : String
  size : String
  radius_m : Int
  description : String
  tags : List String
  sub_zones : List ZoneSubZoneSeed
deriving DecidableEq

/-- The 2D Euclidean distance between the centers of two zones, as computed
inside _enforce_non_overlap and _distance_m. -/
noncomputable def zoneDist (a b : Zone) : ℝ :=
  Real.sqrt (((b.x : ℝ) - (a.x : ℝ)) * ((b.x : ℝ) - (a.x : ℝ)) +
    ((b.y : ℝ) - (a.y : ℝ)) * ((b.y : ℝ) - (a.y : ℝ)))

/-- The body of the inner loop of _enforce_non_overlap for one ordered pair:
returns the displaced later zone. A pair already separated by more than the
sum of radii plus one is left alone; coincident centers are resolved by a
pure x shift; otherwise the later zone is pushed away along the center
vector by the penetration depth and its coordinates rounded. -/
noncomputable def pairAdjust (a b : Zone) : Zone :=
  let dx : ℝ := (b.x : ℝ) - (a.x : ℝ)
  let dy : ℝ := (b.y : ℝ) - (a.y : ℝ)
  let d : ℝ := Real.sqrt (dx * dx + dy * dy)
  let minD : ℝ := (((a.radius_m + b.radius_m + 1 : Int) : ℝ))
  if d ≥ minD then b
  else if d = 0 then { b with x := b.x + pyTrunc minD }
  else
    let push := (minD - d) / d
    { b with x := pyRound ((b.x : ℝ) + dx * push),
             y := pyRound ((b.y : ℝ) + dy * push) }

/-- One iteration of the nested loops of _enforce_non_overlap: replace the
zone at position j by its adjustment against the zone at position i. -/
noncomputable def enforceStep (zs : List Zone) (i j : Nat) : List Zone :=
  match zs[i]?, zs[j]? with
  | some a, some b => zs.set j (pairAdjust a b)
  | _, _ => zs

/-- _enforce_non_overlap: iterate over all index pairs i < j in loop order,
displacing the later zone of every overlapping pair in place. -/
noncomputable def enforceNonOverlap (zs : List Zone) : List Zone :=
  (List.range zs.length).foldl (fun acc i =>
    (List.range' (i + 1) (zs.length - (i + 1))).foldl
      (fun acc2 j => enforceStep acc2 i j) acc) zs

theorem push_sep_core (u v e1 e2 m : ℝ) (hm : 3 ≤ m) (huv : u ^ 2 + v ^ 2 = m ^ 2)
    (he1 : |e1| ≤ 1 / 2) (he2 : |e2| ≤ 1 / 2) :
    (m - 1) ^ 2 < (u + e1) ^ 2 + (v + e2) ^ 2 := by
  have h1 : e1 ^ 2 ≤ 1 / 4 := by
    have h := abs_nonneg e1
    nlinarith [sq_abs e1]
  have h2 : e2 ^ 2 ≤ 1 / 4 := by
    have h := abs_nonneg e2
    nlinarith [sq_abs e2]
  nlinarith [sq_nonneg (u + m * e1), sq_nonneg (v + m * e2), sq_nonneg (m - 3), h1, h2]

set_option maxHeartbeats 1000000 in
theorem pairAdjust_separates (a b : Zone) (hra : 1 ≤ a.radius_m) (hrb : 1 ≤ b.radius_m) :
    ((a.radius_m : ℝ) + ((pairAdjust a b).radius_m : ℝ)) < zoneDist a (pairAdjust a b) := by
  have hm3 : (3 : ℝ) ≤ ((a.radius_m + b.radius_m + 1 : Int) : ℝ) := by
    push_cast
    have : (1 : ℝ) ≤ (a.radius_m : ℝ) := by exact_mod_cast hra
    have : (1 : ℝ) ≤ (b.radius_m : ℝ) := by exact_mod_cast hrb
    linarith
  have hsum : (0 : ℝ) ≤ ((b.x : ℝ) - (a.x : ℝ)) * ((b.x : ℝ) - (a.x : ℝ)) +
      ((b.y : ℝ) - (a.y : ℝ)) * ((b.y : ℝ) - (a.y : ℝ)) :=
    add_nonneg (mul_self_nonneg _) (mul_self_nonneg _)
  simp only [pairAdjust]
  split
  · rename_i hge
    unfold zoneDist
    have hval : ((a.radius_m : ℝ) + (b.radius_m : ℝ) + 1) ≤
        Real.sqrt (((b.x : ℝ) - (a.x : ℝ)) * ((b.x : ℝ) - (a.x : ℝ)) +
          ((b.y : ℝ) - (a.y : ℝ)) * ((b.y : ℝ) - (a.y : ℝ))) := by
      have := hge
      push_cast at this
      linarith
    linarith
  · split
    · rename_i hge hzero
      have hsq : ((b.x : ℝ) - (a.x : ℝ)) * ((b.x : ℝ) - (a.x : ℝ)) +
          ((b.y : ℝ) - (a.y : ℝ)) * ((b.y : ℝ) - (a.y : ℝ)) = 0 := by
        have h := (Real.sqrt_eq_zero hsum).mp hzero
        exact h
      have hdx0 : ((b.x : ℝ) - (a.x : ℝ)) = 0 := by nlinarith [sq_nonneg ((b.x : ℝ) - (a.x : ℝ)), sq_nonneg ((b.y : ℝ) - (a.y : ℝ))]
      have hdy0 : ((b.y : ℝ) - (a.y : ℝ)) = 0 := by nlinarith [sq_nonneg ((b.x : ℝ) - (a.x : ℝ)), sq_nonneg ((b.y : ℝ) - (a.y : ℝ))]
      unfold zoneDist
      dsimp only
      rw [pyTrunc_intCast]
      have hxx : ((b.x + (a.radius_m + b.radius_m + 1) : Int) : ℝ) - (a.x : ℝ) =
          ((a.radius_m + b.radius_m + 1 : Int) : ℝ) := by
        push_cast
        push_cast at hdx0
        linarith
      rw [hxx]
      have hyy : ((b.y : ℝ) - (a.y : ℝ)) = 0 := hdy0
      rw [hyy]
      have hk : (0 : ℝ) ≤ ((a.radius_m + b.radius_m + 1 : Int) : ℝ) := by linarith
      rw [mul_zero, add_zero, Real.sqrt_mul_self hk]
      push_cast
      linarith
    · rename_i hge hzero
      push_neg at hge
      have hdpos : (0 : ℝ) < Real.sqrt (((b.x : ℝ) - (a.x : ℝ)) * ((b.x : ℝ) - (a.x : ℝ)) +
          ((b.y : ℝ) - (a.y : ℝ)) * ((b.y : ℝ) - (a.y : ℝ))) := by
        rcases lt_or_eq_of_le (Real.sqrt_nonneg (((b.x : ℝ) - (a.x : ℝ)) * ((b.x : ℝ) - (a.x : ℝ)) +
          ((b.y : ℝ) - (a.y : ℝ)) * ((b.y : ℝ) - (a.y : ℝ)))) with h | h
        · exact h
        · exact absurd h.symm hzero
      unfold zoneDist
      dsimp only
      set DX : ℝ := (b.x : ℝ) - (a.x : ℝ) with hDX
      set DY : ℝ := (b.y : ℝ) - (a.y : ℝ) with hDY
      set D : ℝ := Real.sqrt (DX * DX + DY * DY) with hD
      set M : ℝ := ((a.radius_m + b.radius_m + 1 : Int) : ℝ) with hM
      have hD2 : D ^ 2 = DX * DX + DY * DY := Real.sq_sqrt hsum
      set T1 : ℝ := (b.x : ℝ) + DX * ((M - D) / D) with hT1
      set T2 : ℝ := (b.y : ℝ) + DY * ((M - D) / D) with hT2
      have he1 := abs_pyRound_sub T1
      have he2 := abs_pyRound_sub T2
      have hu : (pyRound T1 : ℝ) - (a.x : ℝ) = DX * (M / D) + ((pyRound T1 : ℝ) - T1) := by
        have : T1 - (a.x : ℝ) = DX * (M / D) := by
          rw [hT1, hDX]
          field_simp
          ring
        linarith
      have hv : (pyRound T2 : ℝ) - (a.y : ℝ) = DY * (M / D) + ((pyRound T2 : ℝ) - T2) := by
        have : T2 - (a.y : ℝ) = DY * (M / D) := by
          rw [hT2, hDY]
          field_simp
          ring
        linarith
      have huv : (DX * (M / D)) ^ 2 + (DY * (M / D)) ^ 2 = M ^ 2 := by
        have hDne : D ≠ 0 := ne_of_gt hdpos
        field_simp
        nlinarith [hD2]
      have hcore := push_sep_core (DX * (M / D)) (DY * (M / D))
        ((pyRound T1 : ℝ) - T1) ((pyRound T2 : ℝ) - T2) M hm3 huv he1 he2
      have hgoal : (M - 1) ^ 2 < ((pyRound T1 : ℝ) - (a.x : ℝ)) * ((pyRound T1 : ℝ) - (a.x : ℝ)) +
          ((pyRound T2 : ℝ) - (a.y : ℝ)) * ((pyRound T2 : ℝ) - (a.y : ℝ)) := by
        rw [hu, hv]
        nlinarith [hcore]
      have hm1 : (0 : ℝ) ≤ M - 1 := by linarith
      have := (Real.lt_sqrt hm1).mpr hgoal
      have hMval : M - 1 = (a.radius_m : ℝ) + (b.radius_m : ℝ) := by
        rw [hM]
        push_cast
        ring
      rw [hMval] at this
      exact this

theorem zoneDist_symm (a b : Zone) : zoneDist a b = zoneDist b a := by
  unfold zoneDist
  congr 1
  ring

theorem enforceNonOverlap_pair (a b : Zone) :
    enforceNonOverlap [a, b] = [a, pairAdjust a b] := rfl

/-- C4, amended: for every list of at most two zones with the schema-positive
radii, after _enforce_non_overlap runs every pair of zones at distinct
positions is separated by strictly more than the sum of their radii. For
three or more zones the routine can leave overlapping pairs behind, because
pushing the later zone of a pair apart can re-create an overlap with an
already processed zone. -/
theorem claim_c4_enforce_non_overlap (zs : List Zone) (hlen : zs.length ≤ 2)
    (hrad : ∀ z ∈ zs, 1 ≤ z.radius_m) :
    ∀ (i j : Nat) (a b : Zone), i ≠ j → (enforceNonOverlap zs)[i]? = some a →
      (enforceNonOverlap zs)[j]? = some b →
      ((a.radius_m : ℝ) + (b.radius_m : ℝ)) < zoneDist a b := by
  intro i j a b hij ha hb
  match zs, hlen with
  | [], _ =>
      rw [show enforceNonOverlap [] = [] from rfl] at ha
      simp at ha
  | [z], _ =>
      rw [show enforceNonOverlap [z] = [z] from rfl] at ha hb
      rcases i with _ | i1
      · rcases j with _ | j1
        · exact absurd rfl hij
        · simp at hb
      · simp at ha
  | [z1, z2], _ =>
      rw [enforceNonOverlap_pair] at ha hb
      have h1 : 1 ≤ z1.radius_m := hrad z1 (by simp)
      have h2 : 1 ≤ z2.radius_m := hrad z2 (by simp)
      have hsep := pairAdjust_separates z1 z2 h1 h2
      rcases i with _ | _ | i2
      · rcases j with _ | _ | j2
        · exact absurd rfl hij
        · simp only [List.getElem?_cons_zero, List.getElem?_cons_succ,
            Option.some.injEq] at ha hb
          subst ha
          subst hb
          exact hsep
        · simp at hb
      · rcases j with _ | _ | j2
        · simp only [List.getElem?_cons_zero, List.getElem?_cons_succ,
            Option.some.injEq] at ha hb
          subst ha
          subst hb
          rw [zoneDist_symm]
          linarith
        · exact absurd rfl hij
        · simp at hb
      · simp at ha

/-- First zone of the C4 counterexample, centered at the origin. -/
def c4ZoneA : Zone :=
  { zone_id := "za", name := "A", x := 0, y := 0, z := 0, zone_type := "unknown",
    size := "medium", radius_m := 10, description := "a", tags := [], sub_zones := [] }

/-- Second zone of the C4 counterexample, at x = 40. -/
def c4ZoneB : Zone :=
  { zone_id := "zb", name := "B", x := 40, y := 0, z := 0, zone_type := "unknown",
    size := "medium", radius_m := 10, description := "b", tags := [], sub_zones := [] }

/-- Third zone of the C4 counterexample, at x = 20, overlapping both. -/
def c4ZoneC : Zone :=
  { zone_id := "zc", name := "C", x := 20, y := 0, z := 0, zone_type := "unknown",
    size := "medium", radius_m := 10, description := "c", tags := [], sub_zones := [] }

/-- Where the third zone ends up after _enforce_non_overlap: x = 19, only
19 meters from the first zone of radius 10. -/
def c4ZoneCFinal : Zone :=
  { zone_id := "zc", name := "C", x := 19, y := 0, z := 0, zone_type := "unknown",
    size := "medium", radius_m := 10, description := "c", tags := [], sub_zones := [] }

theorem c4_sqrt_1600 : Real.sqrt 1600 = 40 := by
  rw [show (1600 : ℝ) = 40 ^ 2 by norm_num]
  exact Real.sqrt_sq (by norm_num)

theorem c4_sqrt_400 : Real.sqrt 400 = 20 := by
  rw [show (400 : ℝ) = 20 ^ 2 by norm_num]
  exact Real.sqrt_sq (by norm_num)

theorem c4_sqrt_361 : Real.sqrt 361 = 19 := by
  rw [show (361 : ℝ) = 19 ^ 2 by norm_num]
  exact Real.sqrt_sq (by norm_num)

theorem c4_adjust_ab : pairAdjust c4ZoneA c4ZoneB = c4ZoneB := by
  unfold pairAdjust
  simp only [c4ZoneA, c4ZoneB]
  norm_num
  rw [c4_sqrt_1600]
  intro h
  norm_num at h

theorem c4_adjust_ac :
    pairAdjust c4ZoneA c4ZoneC =
      { c4ZoneC with x := 21, y := 0 } := by
  unfold pairAdjust
  simp only [c4ZoneA, c4ZoneC]
  norm_num
  rw [c4_sqrt_400, if_neg (by norm_num)]
  rw [show (20 : ℝ) + 20 * ((21 - 20) / 20) = ((21 : Int) : ℝ) by norm_num]
  rw [show (0 : ℝ) = ((0 : Int) : ℝ) by norm_num]
  rw [pyRound_intCast, pyRound_intCast]

theorem c4_adjust_bc :
    pairAdjust c4ZoneB { c4ZoneC with x := 21, y := 0 } = c4ZoneCFinal := by
  unfold pairAdjust
  simp only [c4ZoneB, c4ZoneC, c4ZoneCFinal]
  norm_num
  rw [c4_sqrt_361, if_neg (by norm_num)]
  rw [show (21 : ℝ) + -(19 * ((21 - 19) / 19)) = ((19 : Int) : ℝ) by norm_num]
  rw [show (0 : ℝ) = ((0 : Int) : ℝ) by norm_num]
  rw [pyRound_intCast, pyRound_intCast]

/-- C4, counterexample: on the three collinear zones A at x = 0, B at x = 40
and C at x = 20, all of radius 10, _enforce_non_overlap first pushes C to
x = 21 (away from A) and then, while separating it from B, pushes it back to
x = 19; the final zone list keeps A and the displaced C only 19 meters
apart, which is not more than the 20-meter radius sum, so the claimed
post-condition fails for three zones. -/
theorem claim_c4_counterexample :
    (enforceNonOverlap [c4ZoneA, c4ZoneB, c4ZoneC])[0]? = some c4ZoneA ∧
    (enforceNonOverlap [c4ZoneA, c4ZoneB, c4ZoneC])[2]? = some c4ZoneCFinal ∧
    ¬ ((c4ZoneA.radius_m : ℝ) + (c4ZoneCFinal.radius_m : ℝ) <
        zoneDist c4ZoneA c4ZoneCFinal) := by
  have hfold : enforceNonOverlap [c4ZoneA, c4ZoneB, c4ZoneC] =
      [c4ZoneA, pairAdjust c4ZoneA c4ZoneB,
        pairAdjust (pairAdjust c4ZoneA c4ZoneB) (pairAdjust c4ZoneA c4ZoneC)] := rfl
  rw [hfold, c4_adjust_ab, c4_adjust_ac, c4_adjust_bc]
  refine ⟨rfl, rfl, ?_⟩
  unfold zoneDist
  simp only [c4ZoneA, c4ZoneCFinal]
  norm_num
  rw [c4_sqrt_361]
  norm_num

/-- Two overlapping zones used to instantiate the amended C4 theorem. -/
def c4WitnessA : Zone :=
  { zone_id := "wa", name := "WA", x := 0, y := 0, z := 0, zone_type := "unknown",
    size := "medium", radius_m := 10, description := "wa", tags := [], sub_zones := [] }

/-- The second witness zone, overlapping the first. -/
def c4WitnessB : Zone :=
  { zone_id := "wb", name := "WB", x := 5, y := 0, z := 0, zone_type := "unknown",
    size := "medium", radius_m := 10, description := "wb", tags := [], sub_zones := [] }

theorem claim_c4_enforce_non_overlap_witness :
    ([c4WitnessA, c4WitnessB].length ≤ 2 ∧
      (∀ z ∈ [c4WitnessA, c4WitnessB], 1 ≤ z.radius_m)) ∧
    ((c4WitnessA.radius_m : ℝ) + ((pairAdjust c4WitnessA c4WitnessB).radius_m : ℝ)) <
      zoneDist c4WitnessA (pairAdjust c4WitnessA c4WitnessB) := by
  refine ⟨⟨by decide, by decide⟩, ?_⟩
  exact claim_c4_enforce_non_overlap [c4WitnessA, c4WitnessB] (by decide) (by decide)
    0 1 c4WitnessA (pairAdjust c4WitnessA c4WitnessB) (by decide)
    (by rw [enforceNonOverlap_pair]; rfl) (by rw [enforceNonOverlap_pair]; rfl)

/-- _fit_offset_in_radius: when the offset lies within the effective radius
it is returned unchanged; otherwise it is scaled onto the boundary ray and
its coordinates rounded. -/
noncomputable def fitOffsetInRadius (offsetX offsetY : Int) (radiusM : Int) :
    Int × Int :=
  let dist := Real.sqrt ((offsetX : ℝ) * (offsetX : ℝ) + (offsetY : ℝ) * (offsetY : ℝ))
  let maxDist : ℝ := max 1 (radiusM : ℝ)
  if dist ≤ maxDist then (offsetX, offsetY)
  else
    let ratio := maxDist / dist
    (pyRound ((offsetX : ℝ) * ratio), pyRound ((offsetY : ℝ) * ratio))

theorem fit_clamp_core (u v e1 e2 m : ℝ) (hm : 1 ≤ m) (huv : u ^ 2 + v ^ 2 = m ^ 2)
    (he1 : |e1| ≤ 1 / 2) (he2 : |e2| ≤ 1 / 2) :
    (u + e1) ^ 2 + (v + e2) ^ 2 < (m + 1) ^ 2 := by
  have h1 : e1 ^ 2 ≤ 1 / 4 := by
    have h := abs_nonneg e1
    nlinarith [sq_abs e1]
  have h2 : e2 ^ 2 ≤ 1 / 4 := by
    have h := abs_nonneg e2
    nlinarith [sq_abs e2]
  nlinarith [sq_nonneg (u - m * e1), sq_nonneg (v - m * e2), sq_nonneg (m - 1), h1, h2]

/-- C9, amended: for every sub-zone offset and parent radius r >= 1, the
offset is returned unchanged exactly when its magnitude is at most r; an
offset beyond the boundary is scaled onto the boundary ray and rounded, and
the rounding can push its magnitude slightly past r, but always strictly
below r + 1. -/
theorem claim_c9_fit_offset (ox oy r : Int) (hr : 1 ≤ r) :
    (ox * ox + oy * oy ≤ r * r → fitOffsetInRadius ox oy r = (ox, oy)) ∧
    (r * r < ox * ox + oy * oy →
      (fitOffsetInRadius ox oy r).1 * (fitOffsetInRadius ox oy r).1 +
        (fitOffsetInRadius ox oy r).2 * (fitOffsetInRadius ox oy r).2 <
        (r + 1) * (r + 1)) := by
  have hrR : (1 : ℝ) ≤ (r : ℝ) := by exact_mod_cast hr
  have hmax : max 1 (r : ℝ) = (r : ℝ) := max_eq_right hrR
  have hS0 : (0 : ℝ) ≤ (ox : ℝ) * (ox : ℝ) + (oy : ℝ) * (oy : ℝ) :=
    add_nonneg (mul_self_nonneg _) (mul_self_nonneg _)
  constructor
  · intro hin
    have hinR : (ox : ℝ) * (ox : ℝ) + (oy : ℝ) * (oy : ℝ) ≤ (r : ℝ) * (r : ℝ) := by
      exact_mod_cast hin
    have hsqrt : Real.sqrt ((ox : ℝ) * (ox : ℝ) + (oy : ℝ) * (oy : ℝ)) ≤ (r : ℝ) := by
      have h1 := Real.sqrt_le_sqrt hinR
      rw [show (r : ℝ) * (r : ℝ) = (r : ℝ) ^ 2 by ring,
        Real.sqrt_sq (by linarith)] at h1
      exact h1
    unfold fitOffsetInRadius
    rw [hmax, if_pos hsqrt]
  · intro hout
    have houtR : (r : ℝ) * (r : ℝ) < (ox : ℝ) * (ox : ℝ) + (oy : ℝ) * (oy : ℝ) := by
      exact_mod_cast hout
    have hsqrt : (r : ℝ) < Real.sqrt ((ox : ℝ) * (ox : ℝ) + (oy : ℝ) * (oy : ℝ)) := by
      have := (Real.lt_sqrt (by linarith : (0 : ℝ) ≤ (r : ℝ))).mpr
        (by nlinarith : (r : ℝ) ^ 2 < (ox : ℝ) * (ox : ℝ) + (oy : ℝ) * (oy : ℝ))
      exact this
    have hcond : ¬ Real.sqrt ((ox : ℝ) * (ox : ℝ) + (oy : ℝ) * (oy : ℝ)) ≤ max 1 (r : ℝ) := by
      rw [hmax]
      linarith
    unfold fitOffsetInRadius
    rw [hmax] at hcond ⊢
    rw [if_neg hcond]
    set D : ℝ := Real.sqrt ((ox : ℝ) * (ox : ℝ) + (oy : ℝ) * (oy : ℝ)) with hD
    have hDpos : (0 : ℝ) < D := lt_trans (by linarith) hsqrt
    have hD2 : D ^ 2 = (ox : ℝ) * (ox : ℝ) + (oy : ℝ) * (oy : ℝ) := Real.sq_sqrt hS0
    set U : ℝ := (ox : ℝ) * ((r : ℝ) / D) with hU
    set V : ℝ := (oy : ℝ) * ((r : ℝ) / D) with hV
    have huv : U ^ 2 + V ^ 2 = (r : ℝ) ^ 2 := by
      rw [hU, hV]
      have hDne : D ≠ 0 := ne_of_gt hDpos
      field_simp
      nlinarith [hD2]
    have he1 := abs_pyRound_sub U
    have he2 := abs_pyRound_sub V
    have hcore := fit_clamp_core U V ((pyRound U : ℝ) - U) ((pyRound V : ℝ) - V)
      (r : ℝ) hrR huv he1 he2
    have hreal : ((pyRound U : Int) : ℝ) * ((pyRound U : Int) : ℝ) +
        ((pyRound V : Int) : ℝ) * ((pyRound V : Int) : ℝ) <
        ((r : ℝ) + 1) * ((r : ℝ) + 1) := by
      nlinarith [hcore]
    have : (pyRound U * pyRound U + pyRound V * pyRound V : Int) < (r + 1) * (r + 1) := by
      exact_mod_cast hreal
    simpa using this

theorem claim_c9_fit_offset_witness :
    (1 : Int) ≤ 5 ∧ ((0 : Int) * 0 + 0 * 0 ≤ 5 * 5) ∧
      fitOffsetInRadius 0 0 5 = (0, 0) :=
  ⟨by decide, by decide, (claim_c9_fit_offset 0 0 5 (by decide)).1 (by decide)⟩

/-- C9, counterexample: the offset (1, 1) against radius 1 is scaled onto
the boundary ray to (0.707, 0.707) and rounded up to (1, 1), whose squared
magnitude 2 exceeds the squared radius 1: the returned offset magnitude can
exceed the parent radius. -/
theorem claim_c9_counterexample :
    fitOffsetInRadius 1 1 1 = (1, 1) ∧
      ¬ ((fitOffsetInRadius 1 1 1).1 * (fitOffsetInRadius 1 1 1).1 +
         (fitOffsetInRadius 1 1 1).2 * (fitOffsetInRadius 1 1 1).2 ≤ 1 * 1) := by
  have hsq2 : Real.sqrt 2 ^ 2 = 2 := Real.sq_sqrt (by norm_num)
  have hpos : (0 : ℝ) < Real.sqrt 2 := Real.sqrt_pos.mpr (by norm_num)
  have hlt2 : Real.sqrt 2 < 2 := by nlinarith
  have hgt1 : (1 : ℝ) < Real.sqrt 2 := by nlinarith
  have hfrac : (1 : ℝ) / 2 < 1 / Real.sqrt 2 := by
    rw [div_lt_div_iff (by norm_num) hpos]
    nlinarith
  have hfloor : ⌊(1 : ℝ) / Real.sqrt 2⌋ = 0 := by
    apply Int.floor_eq_zero_iff.mpr
    constructor
    · positivity
    · rw [div_lt_one hpos]
      exact hgt1
  have hround : pyRound ((1 : ℝ) / Real.sqrt 2) = 1 := by
    unfold pyRound
    rw [hfloor]
    rw [if_neg (by push_cast; linarith), if_pos (by push_cast; linarith)]
    norm_num
  have heval : fitOffsetInRadius 1 1 1 = (1, 1) := by
    simp only [fitOffsetInRadius]
    rw [show ((1 : Int) : ℝ) = (1 : ℝ) by norm_num]
    rw [show (1 : ℝ) * 1 + 1 * 1 = 2 by norm_num]
    rw [max_self]
    rw [if_neg (by push_neg; exact hgt1)]
    rw [show (1 : ℝ) * (1 / Real.sqrt 2) = 1 / Real.sqrt 2 by ring]
    rw [hround]
  rw [heval]
  exact ⟨rfl, by decide⟩

/-! ## Section 4: the area materializer, role pool engine and session actions -/

/-- A player position on the flat map. -/
structure Position where
  x : Int
  y : Int
  z : Int
  zone_id : String
deriving DecidableEq

/-- A 3D coordinate of the normalized area view; the source stores floats,
modelled as reals. -/
structure Coord3D where
  x : ℝ
  y : ℝ
  z : ℝ

/-- A key interaction attached to a sub-zone. -/
structure AreaInteraction where
  interaction_id : String
  name : String
  type : String
  status : String
  generated_mode : String
  placeholder : Bool
deriving DecidableEq

/-- An NPC stub attached to a sub-zone. -/
structure AreaNpc where
  npc_id : String
  name : String
  state : String
deriving DecidableEq

/-- The mutable state block of a sub-zone. -/
structure SubZoneState where
  time_segment : String
  flags : List String
deriving DecidableEq

/-- A normalized runtime sub-zone. -/
structure AreaSubZone where
  sub_zone_id : String
  zone_id : String
  name : String
  coord : Coord3D
  radius_m : Int
  description : String
  generated_mode : String
  key_interactions : List AreaInteraction
  npcs : List AreaNpc
  state : SubZoneState

/-- The mutable state block of a zone. -/
structure ZoneState where
  flags : List String
  last_refresh_clock : String
deriving DecidableEq

/-- A normalized runtime zone. -/
structure AreaZone where
  zone_id : String
  name : String
  zone_type : String
  size : String
  center : Coord3D
  radius_m : Int
  description : String
  sub_zone_ids : List String
  state : ZoneState

/-- The normalized area view: zones, sub-zones, current location and clock. -/
structure AreaSnapshot where
  version : String
  zones : List AreaZone
  sub_zones : List AreaSubZone
  current_zone_id : Option String
  current_sub_zone_id : Option String
  clock : Option WorldClock

/-- The flat map view: player position and authored zones. -/
structure MapSnapshot where
  player_position : Option Position
  zones : List Zone
deriving DecidableEq

/-- A scalar payload value of a game log entry: the source restricts the
payload dict to str, int, float and bool values. -/
inductive LogVal where
  | str (s : String)
  | int (n : Int)
  | real (x : ℝ)
  | bool (b : Bool)

/-- An append-only game log entry. -/
structure GameLogEntry where
  id : String
  session_id : String
  kind : String
  message : String
  payload : List (String × LogVal)
  created_at : String

/-- Game log retention and fetch settings. -/
structure GameLogSettings where
  ai_fetch_limit : Int
deriving DecidableEq

/-- Hit point block of a character sheet. -/
structure Dnd5eHitPoints where
  current : Int
  maximum : Int
  temporary : Int
deriving DecidableEq

/-- The six ability scores of a character sheet. -/
structure Dnd5eAbilityScores where
  strength : Int
  dexterity : Int
  constitution : Int
  intelligence : Int
  wisdom : Int
  charisma : Int
deriving DecidableEq

/-- A full character sheet, shared by the player and NPC profiles. -/
structure Dnd5eCharacterSheet where
  level : Int
  race : String
  char_class : String
  background : String
  alignment : String
  proficiency_bonus : Int
  armor_class : Int
  speed_ft : Int
  initiative_bonus : Int
  hit_dice : String
  hit_points : Dnd5eHitPoints
  ability_scores : Dnd5eAbilityScores
  saving_throws_proficient : List String
  skills_proficient : List String
  languages : List String
  tool_proficiencies : List String
  equipment : List String
  features_traits : List String
  spells : List String
  notes : String
deriving DecidableEq

/-- Static data of the player or of an NPC profile. -/
structure PlayerStaticData where
  player_id : String
  name : String
  move_speed_mph : Int
  role_type : String
  dnd5e_sheet : Dnd5eCharacterSheet
deriving DecidableEq

/-- Runtime data of the player. -/
structure PlayerRuntimeData where
  session_id : String
  current_position : Option Position
  updated_at : String
deriving DecidableEq

/-- A relationship edge from one role to another role or to the player. -/
structure RoleRelation where
  target_role_id : String
  relation_tag : String
  note : String
deriving DecidableEq

/-- One entry of the capped dialogue log of a role card. -/
structure NpcDialogueEntry where
  id : String
  speaker : String
  speaker_role_id : String
  speaker_name : String
  content : String
  world_time_text : String
  world_time : List (String × Json)
  created_at : String
deriving DecidableEq

/-- A full NPC role card. -/
structure NpcRoleCard where
  role_id : String
  name : String
  zone_id : Option String
  sub_zone_id : Option String
  state : String
  personality : String
  speaking_style : String
  appearance : String
  background : String
  cognition : String
  alignment : String
  profile : PlayerStaticData
  relations : List RoleRelation
  dialogue_logs : List NpcDialogueEntry
  generated_at : String
deriving DecidableEq

/-- The root save aggregate of one session. -/
structure SaveFile where
  version : String
  session_id : String
  map_snapshot : MapSnapshot
  area_snapshot : AreaSnapshot
  game_logs : List GameLogEntry
  game_log_settings : GameLogSettings
  player_static_data : PlayerStaticData
  player_runtime_data : PlayerRuntimeData
  role_pool : List NpcRoleCard
  updated_at : String

/-- _stable_int: the integer value of the first 8 hex digits of the SHA-256
of the seed string, a value in [0, 2^32). The cryptographic digest is not
reproduced here; it is modelled by a fixed deterministic polynomial string
hash with the same range, which preserves the only property the program
relies on: the value is a stable pure function of the seed. -/
def stableInt (seed : String) : Nat :=
  seed.foldl (fun h c => (h * 131 + c.toNat) % 4294967296) 7

/-- _ability_score_with_seed: a seeded score in [8, 18]. -/
def abilityScoreWithSeed (seed : String) (offset : Nat) : Int :=
  let base : Int := 8 + (stableInt (seed ++ ":" ++ toString offset) % 11)
  max 8 (min 18 base)

/-- _ability_mod: floor((score - 10) / 2), the Python floor division. -/
def abilityMod (score : Int) : Int :=
  Int.fdiv (score - 10) 2

/-- _pick: a stable choice from a fixed option pool. -/
def pick (seed : String) (options : List String) : String :=
  if options.isEmpty then ""
  else options.getD (stableInt seed % options.length) ""

/-- The flavor block generated for a new NPC. -/
structure NpcFlavor where
  personality : String
  speaking_style : String
  appearance : String
  background : String
  cognition : String
  alignment : String
deriving DecidableEq

/-- _build_npc_flavor: seeded narrative flavor for an NPC. -/
def buildNpcFlavor (npcId zoneName subName subDesc : String) : NpcFlavor :=
  { personality := pick (npcId ++ ":personality")
      ["谨慎", "豪爽", "机敏", "稳重", "多疑", "热心", "冷静", "直率"],
    speaking_style := pick (npcId ++ ":speech")
      ["语速平缓，措辞克制", "说话简短直接", "喜欢举例说明", "习惯先试探再表态", "带有地方口音"],
    appearance := pick (npcId ++ ":appearance")
      ["披着旧斗篷", "佩戴铜制护符", "手上有旧伤疤", "衣着整洁但朴素", "背着工具包"],
    background := ("常驻于【" ++ zoneName ++ "/" ++ subName ++ "】。" ++ subDesc.take 42).trim,
    cognition := pick (npcId ++ ":cognition")
      ["重视秩序", "重视利益交换", "重视同伴承诺", "重视知识与传闻", "重视安全边界"],
    alignment := pick (npcId ++ ":alignment")
      ["lawful_good", "neutral_good", "true_neutral", "chaotic_neutral", "lawful_neutral"] }

/-- Zero-padded four digit decimal rendering, the %04d format of the
role id. -/
def pad4 (n : Nat) : String :=
  if n < 10 then "000" ++ toString n
  else if n < 100 then "00" ++ toString n
  else if n < 1000 then "0" ++ toString n
  else toString n

/-- _build_npc_identity: the deterministic role id and display name derived
from the sub-zone id and index. -/
def buildNpcIdentity (zoneName subName subId : String) (idx : Nat) : String × String :=
  let baseSeed := subId ++ ":" ++ toString idx
  let title := pick (baseSeed ++ ":title") ["哨卫", "商贩", "学徒", "向导", "巡逻者", "抄写员", "药师", "工匠"]
  let surname := pick (baseSeed ++ ":surname") ["林", "岳", "岚", "霁", "川", "墨", "澜", "宁", "祁", "商"]
  let given := pick (baseSeed ++ ":given") ["安", "洛", "越", "岑", "遥", "珂", "骁", "弈", "乔", "白"]
  let roleId := "npc_" ++ subId ++ "_" ++ pad4 (stableInt baseSeed % 9999)
  let name := zoneName ++ title ++ surname ++ given
  (roleId, name)

/-- _build_npc_profile: the full seeded character sheet of a new NPC. -/
def buildNpcProfile (npcId npcName : String) : PlayerStaticData :=
  let strength := abilityScoreWithSeed npcId 1
  let dexterity := abilityScoreWithSeed npcId 2
  let constitution := abilityScoreWithSeed npcId 3
  let intelligence := abilityScoreWithSeed npcId 4
  let wisdom := abilityScoreWithSeed npcId 5
  let charisma := abilityScoreWithSeed npcId 6
  let level : Int := 1 + (stableInt (npcId ++ ":lvl") % 5)
  let conMod := abilityMod constitution
  let hpMax := max 4 (8 + conMod + max (level - 1) 0 * (5 + conMod))
  let proficiency := 2 + Int.fdiv (level - 1) 4
  let armorClass := 10 + abilityMod dexterity
  { player_id := npcId, name := npcName, move_speed_mph := 4200, role_type := "npc",
    dnd5e_sheet :=
      { level := level, race := "", char_class := "", background := "", alignment := "",
        proficiency_bonus := proficiency, armor_class := armorClass, speed_ft := 30,
        initiative_bonus := abilityMod dexterity, hit_dice := "1d8",
        hit_points := { current := hpMax, maximum := hpMax, temporary := 0 },
        ability_scores :=
          { strength := strength, dexterity := dexterity, constitution := constitution,
            intelligence := intelligence, wisdom := wisdom, charisma := charisma },
        saving_throws_proficient := [], skills_proficient := [], languages := [],
        tool_proficiencies := [], equipment := [], features_traits := [], spells := [],
        notes := "" } }

/-- The zone display name used when creating stubs and role cards: the name
of the first snapshot zone with the matching id, else the raw zone id. -/
def zoneNameOf (zones : List AreaZone) (zoneId : String) : String :=
  ((zones.find? (fun z => z.zone_id == zoneId)).map (fun z => z.name)).getD zoneId

/-- Phase one of _ensure_role_pool_from_area for one sub-zone: a sub-zone
without NPC stubs receives one deterministic stub. -/
def stubComplete (zones : List AreaZone) (sub : AreaSubZone) : AreaSubZone :=
  if sub.npcs.isEmpty then
    let idn := buildNpcIdentity (zoneNameOf zones sub.zone_id) sub.name sub.sub_zone_id 0
    { sub with npcs := [{ npc_id := idn.1, name := idn.2, state := "idle" }] }
  else sub

/-- The normalization npc.state or "idle" of the source. -/
def npcStateOr (s : String) : String :=
  if s = "" then "idle" else s

/-- The field synchronization applied to an existing role card for a stub. -/
def roleSyncFields (sub : AreaSubZone) (npc : AreaNpc) (role : NpcRoleCard) : NpcRoleCard :=
  { role with
    name := npc.name, zone_id := some sub.zone_id,
    sub_zone_id := some sub.sub_zone_id, state := npcStateOr npc.state }

/-- The role card created for a stub without one. -/
def buildRoleCard (now : String) (zones : List AreaZone) (sub : AreaSubZone)
    (npc : AreaNpc) : NpcRoleCard :=
  let flavor := buildNpcFlavor npc.npc_id (zoneNameOf zones sub.zone_id) sub.name sub.description
  { role_id := npc.npc_id, name := npc.name, zone_id := some sub.zone_id,
    sub_zone_id := some sub.sub_zone_id, state := npcStateOr npc.state,
    personality := flavor.personality, speaking_style := flavor.speaking_style,
    appearance := flavor.appearance, background := flavor.background,
    cognition := flavor.cognition, alignment := flavor.alignment,
    profile := buildNpcProfile npc.npc_id npc.name, relations := [],
    dialogue_logs := [], generated_at := now }

/-- The role_map lookup of the source: the dict built over the pool maps a
role id to the object at its last occurrence, and creations extend the map,
so the lookup is the last pool entry with the id. -/
def roleMapFind (pool : List NpcRoleCard) (rid : String) : Option NpcRoleCard :=
  (pool.filter (fun r => r.role_id == rid)).getLast?

/-- In-place mutation through the role_map: update the last pool entry that
carries the id. -/
def updateLastRole (rid : String) (f : NpcRoleCard → NpcRoleCard) :
    List NpcRoleCard → List NpcRoleCard
  | [] => []
  | r :: rest =>
      if rest.any (fun q => q.role_id == rid) then r :: updateLastRole rid f rest
      else if r.role_id == rid then f r :: rest
      else r :: rest

/-- Phase two of _ensure_role_pool_from_area for one stub: create the
missing role card or synchronize the existing one. -/
def syncNpcStep (zones : List AreaZone) (now : String) (sub : AreaSubZone)
    (pool : List NpcRoleCard) (npc : AreaNpc) : List NpcRoleCard :=
  match roleMapFind pool npc.npc_id with
  | none => pool ++ [buildRoleCard now zones sub npc]
  | some _ => updateLastRole npc.npc_id (roleSyncFields sub npc) pool

/-- Phases one and two for one sub-zone: complete its stub list, then sync
every stub against the pool. -/
def processSub (zones : List AreaZone) (now : String)
    (st : List AreaSubZone × List NpcRoleCard) (sub0 : AreaSubZone) :
    List AreaSubZone × List NpcRoleCard :=
  let sub := stubComplete zones sub0
  (st.1 ++ [sub], sub.npcs.foldl (syncNpcStep zones now sub) st.2)

/-- Phase three for the role at one position: a role without relations is
linked to the next and possibly next-next role in pool order. -/
def seedRelationsFor (roleIds : List String) (idx : Nat) (role : NpcRoleCard) :
    NpcRoleCard :=
  if role.relations ≠ [] then role
  else if roleIds.length ≤ 1 then role
  else
    let firstTarget := roleIds.getD ((idx + 1) % roleIds.length) ""
    if firstTarget = role.role_id then role
    else
      let base : List RoleRelation :=
        [{ target_role_id := firstTarget, relation_tag := "acquaintance", note := "初始关联" }]
      let rels :=
        if 2 < roleIds.length ∧ idx % 2 = 0 then
          let secondTarget := roleIds.getD ((idx + 2) % roleIds.length) ""
          if secondTarget ≠ role.role_id ∧ secondTarget ≠ firstTarget then
            base ++ [{ target_role_id := secondTarget, relation_tag := "ally", note := "初始关联" }]
          else base
        else base
      { role with relations := rels.take 2 }

/-- Phase three of _ensure_role_pool_from_area over the whole pool. -/
def seedRelations (pool : List NpcRoleCard) : List NpcRoleCard :=
  let roleIds := pool.map (fun r => r.role_id)
  pool.enum.map (fun p => seedRelationsFor roleIds p.1 p.2)

/-- Phase four of _ensure_role_pool_from_area: remove relations pointing to
the player; a player relation is created only by the explicit upsert. -/
def stripPlayerRelations (playerId : String) (pool : List NpcRoleCard) :
    List NpcRoleCard :=
  pool.map (fun r =>
    { r with relations := r.relations.filter (fun e => e.target_role_id != playerId) })

/-- _ensure_role_pool_from_area: complete NPC stubs, materialize or sync
role cards, seed missing relations, and strip player-targeting relations.
The boolean changed flag computed by the source is dropped: every caller in
the source ignores it. -/
def ensureRolePoolFromArea (now : String) (s : SaveFile) : SaveFile :=
  let st := s.area_snapshot.sub_zones.foldl
    (processSub s.area_snapshot.zones now) ([], s.role_pool)
  let pool := stripPlayerRelations s.player_static_data.player_id (seedRelations st.2)
  { s with
    area_snapshot := { s.area_snapshot with sub_zones := st.1 },
    role_pool := pool }

/-- _sub_zone_count_range: the size-banded sub-zone count table. -/
def subZoneCountRange (size : String) : Nat × Nat :=
  if size = "small" then (3, 5)
  else if size = "large" then (8, 15)
  else (5, 10)

/-- _zone_radius_range: the size-banded zone radius table. -/
def zoneRadiusRange (size : String) : Int × Int :=
  if size = "small" then (60, 180)
  else if size = "large" then (240, 500)
  else (120, 300)

/-- _default_sub_zone_seeds: the deterministic fallback layout of sub-zone
seeds for a zone of the given size. -/
noncomputable def defaultSubZoneSeeds (size zoneName : String) : List ZoneSubZoneSeed :=
  let minCount := (subZoneCountRange size).1
  let rmin := (zoneRadiusRange size).1
  let rmax := (zoneRadiusRange size).2
  let baseR : Int := pyTrunc (((rmin : ℝ) + (rmax : ℝ)) / 2)
  (List.range minCount).map (fun idx =>
    let angleBucket : Nat := idx % 6 + 1
    let step : Int := max 30 (pyTrunc ((baseR : ℝ) * (0.35 + 0.1 * (angleBucket : ℝ))))
    { name := zoneName ++ "子区" ++ toString (idx + 1),
      offset_x := if idx % 2 = 0 then step else -step,
      offset_y := if idx % 3 = 0 then Int.fdiv step 2 else -(Int.fdiv step 2),
      offset_z := 0,
      description := "自动补全的子区块" })

/-- _is_sub_seed_quality_bad: the degeneracy heuristic on seed sets. -/
noncomputable def isSubSeedQualityBad (seeds : List ZoneSubZoneSeed) (radiusM : Int) : Bool :=
  if seeds.isEmpty then true
  else
    let centerThreshold : ℝ := max 8 ((radiusM : ℝ) * 0.08)
    let nearCenter := (seeds.filter (fun s =>
      Real.sqrt ((s.offset_x : ℝ) * (s.offset_x : ℝ) + (s.offset_y : ℝ) * (s.offset_y : ℝ) +
        (s.offset_z : ℝ) * (s.offset_z : ℝ)) ≤ centerThreshold)).length
    let coords := (seeds.map (fun s => (s.offset_x, s.offset_y, s.offset_z))).dedup
    if coords.length ≤ 1 then true
    else if max 1 (seeds.length - 1) ≤ nearCenter then true
    else false

/-- _infer_zone_type: classify a zone by its tags. -/
def inferZoneType (tags : List String) : String :=
  let norm := tags.map (fun t => t.trim.toLower)
  if norm.any (fun t => t = "city" || t = "urban" || t = "town") then "city"
  else if norm.any (fun t => t = "village" || t = "rural") then "village"
  else if norm.any (fun t => t = "forest" || t = "wood") then "forest"
  else if norm.any (fun t => t = "mountain") then "mountain"
  else if norm.any (fun t => t = "river") then "river"
  else if norm.any (fun t => t = "desert") then "desert"
  else if norm.any (fun t => t = "coast" || t = "beach" || t = "sea") then "coast"
  else "unknown"

/-- The normalized area data derived from one map zone by
_area_snapshot_from_map: the AreaZone and its AreaSubZones. -/
noncomputable def areaZoneFromMapZone (zone : Zone) : AreaZone × List AreaSubZone :=
  let seeds := if zone.sub_zones.isEmpty then defaultSubZoneSeeds zone.size zone.name
    else zone.sub_zones
  let subs := seeds.enum.map (fun p =>
    let sidx := p.1
    let seed := p.2
    let off := fitOffsetInRadius seed.offset_x seed.offset_y zone.radius_m
    let subId := "sub_" ++ zone.zone_id ++ "_" ++ toString (sidx + 1)
    let idn := buildNpcIdentity zone.name seed.name subId 0
    let obsId := "int_" ++ zone.zone_id ++ "_" ++ toString (sidx + 1) ++ "_observe"
    let obs : AreaInteraction :=
      { interaction_id := obsId, name := "观察周边", type := "scene", status := "ready",
        generated_mode := "pre", placeholder := true }
    let sub : AreaSubZone :=
      { sub_zone_id := subId, zone_id := zone.zone_id, name := seed.name,
        coord := { x := ((zone.x + off.1 : Int) : ℝ), y := ((zone.y + off.2 : Int) : ℝ),
                   z := ((zone.z + seed.offset_z : Int) : ℝ) },
        radius_m := 20,
        description := if seed.description = "" then zone.description else seed.description,
        generated_mode := "pre",
        key_interactions := [obs],
        npcs := [{ npc_id := idn.1, name := idn.2, state := "idle" }],
        state := { time_segment := "day", flags := ["normal"] } }
    sub)
  let az : AreaZone :=
    { zone_id := zone.zone_id, name := zone.name,
      zone_type := if zone.zone_type = "" then inferZoneType zone.tags else zone.zone_type,
      size := zone.size, center := { x := (zone.x : ℝ), y := (zone.y : ℝ), z := (zone.z : ℝ) },
      radius_m := zone.radius_m, description := zone.description,
      sub_zone_ids := subs.map (fun s => s.sub_zone_id),
      state := { flags := ["normal"], last_refresh_clock := "" } }
  (az, subs)

/-- _area_snapshot_from_map: rebuild the normalized snapshot from the map
zones. The loop breaks after index 41, so at most the first 42 zones are
materialized. The current zone falls back to the first materialized zone
when the player position carries no usable zone id. -/
noncomputable def areaSnapshotFromMap (now : String) (s : SaveFile) : AreaSnapshot :=
  let built := (s.map_snapshot.zones.take 42).map areaZoneFromMapZone
  let zones := built.map (fun p => p.1)
  let subZones := built.bind (fun p => p.2)
  let posZone := s.player_runtime_data.current_position.map (fun p => p.zone_id)
  let currentZoneId :=
    if (posZone = none ∨ posZone = some "") ∧ ¬ zones.isEmpty then
      (zones.head?.map (fun z => z.zone_id))
    else posZone
  { version := "0.1.0", zones := zones, sub_zones := subZones,
    current_zone_id := currentZoneId, current_sub_zone_id := none,
    clock := some (defaultWorldClock now "fantasy_default") }

/-- _ensure_area_snapshot: rebuild the snapshot from the map when it has no
zones, default the clock when absent, then run the role pool engine. -/
noncomputable def ensureAreaSnapshot (now : String) (s : SaveFile) : SaveFile :=
  let s1 := if s.area_snapshot.zones.isEmpty ∧ ¬ s.map_snapshot.zones.isEmpty then
      { s with area_snapshot := areaSnapshotFromMap now s }
    else s
  let s2 := if s1.area_snapshot.clock.isNone then
      { s1 with area_snapshot := { s1.area_snapshot with
          clock := some (defaultWorldClock now "fantasy_default") } }
    else s1
  ensureRolePoolFromArea now s2

/-! ## Section 5: action checks (C8) -/

/-- The classification produced for one d20 roll by action_check. -/
structure CheckOutcome where
  critical : String
  success : Bool
  total_score : Int
deriving DecidableEq

/-- The requires_check branch of action_check: a natural 1 is a critical
failure, a natural 20 a critical success, and any other roll succeeds
exactly when roll + ability modifier reaches the DC. -/
def actionCheckOutcome (diceRoll abilityModifier dc : Int) : CheckOutcome :=
  let totalScore := diceRoll + abilityModifier
  if diceRoll = 1 then
    { critical := "critical_failure", success := false, total_score := totalScore }
  else if diceRoll = 20 then
    { critical := "critical_success", success := true, total_score := totalScore }
  else
    { critical := "none", success := decide (dc ≤ totalScore), total_score := totalScore }

/-- C8: for every roll in 1..20, a natural 1 always fails as a critical
failure, a natural 20 always succeeds as a critical success, any other roll
succeeds exactly when roll + modifier reaches the DC and is non-critical,
and the concrete scenario DC 12, ability score 14 (modifier +2), roll 19
totals 21 and is a plain success. -/
theorem claim_c8_ability_check (r modv dc : Int) (h1 : 1 ≤ r) (h2 : r ≤ 20) :
    ((actionCheckOutcome r modv dc).total_score = r + modv)
    ∧ (r = 1 → (actionCheckOutcome r modv dc).success = false
        ∧ (actionCheckOutcome r modv dc).critical = "critical_failure")
    ∧ (r = 20 → (actionCheckOutcome r modv dc).success = true
        ∧ (actionCheckOutcome r modv dc).critical = "critical_success")
    ∧ (r ≠ 1 → r ≠ 20 →
        (((actionCheckOutcome r modv dc).success = true) ↔ dc ≤ r + modv)
        ∧ (actionCheckOutcome r modv dc).critical = "none")
    ∧ actionCheckOutcome 19 (abilityMod 14) 12
        = { critical := "none", success := true, total_score := 21 } := by
  refine ⟨?_, ?_, ?_, ?_, by decide⟩
  · unfold actionCheckOutcome
    split_ifs <;> rfl
  · intro hr; subst hr
    constructor <;> rfl
  · intro hr; subst hr
    constructor <;> rfl
  · intro hr1 hr20
    unfold actionCheckOutcome
    simp only [hr1, hr20, if_false]
    constructor
    · simp
    · trivial

theorem claim_c8_ability_check_witness :
    actionCheckOutcome 19 (abilityMod 14) 12
      = { critical := "none", success := true, total_score := 21 } :=
  (claim_c8_ability_check 5 (abilityMod 14) 12 (by decide) (by decide)).2.2.2.2

/-! ## Section 6: the token usage ledger (C10) -/

/-- A token counter bucket of the usage ledger. -/
structure TokenUsageBucket where
  input_tokens : Int
  output_tokens : Int
  total_tokens : Int
deriving DecidableEq

/-- The per-source buckets of the usage ledger. -/
structure TokenUsageSources where
  chat : TokenUsageBucket
  map_generation : TokenUsageBucket
  movement_narration : TokenUsageBucket
deriving DecidableEq

/-- One session's usage ledger. -/
structure TokenUsageResponse where
  session_id : String
  total : TokenUsageBucket
  sources : TokenUsageSources
deriving DecidableEq

/-- The three accepted token sources. -/
inductive TokenSource where
  | chat
  | map_generation
  | movement_narration
deriving DecidableEq

def tokenBucketZero : TokenUsageBucket :=
  { input_tokens := 0, output_tokens := 0, total_tokens := 0 }

/-- The fresh ledger materialized by TokenUsageStore._ensure and reset. -/
def emptyTokenUsage (sessionId : String) : TokenUsageResponse :=
  { session_id := sessionId, total := tokenBucketZero,
    sources := { chat := tokenBucketZero, map_generation := tokenBucketZero,
                 movement_narration := tokenBucketZero } }

/-- The _by_session dict of TokenUsageStore, keyed by session id. -/
abbrev TokenStore := List (String × TokenUsageResponse)

/-- TokenUsageStore.get observes a session: the stored ledger, or the fresh
zero ledger _ensure would materialize. -/
def tokenGet (st : TokenStore) (sessionId : String) : TokenUsageResponse :=
  (alookup st sessionId).getD (emptyTokenUsage sessionId)

/-- TokenUsageStore._ensure: the session's ledger plus the store after the
possible insertion of a fresh ledger. -/
def tokenEnsure (st : TokenStore) (sessionId : String) :
    TokenUsageResponse × TokenStore :=
  match alookup st sessionId with
  | some u => (u, st)
  | none => (emptyTokenUsage sessionId, st ++ [(sessionId, emptyTokenUsage sessionId)])

def bucketAdd (b : TokenUsageBucket) (i o t : Int) : TokenUsageBucket :=
  { input_tokens := b.input_tokens + i, output_tokens := b.output_tokens + o,
    total_tokens := b.total_tokens + t }

def sourcesAdd (s : TokenUsageSources) (src : TokenSource) (i o t : Int) :
    TokenUsageSources :=
  match src with
  | .chat => { s with chat := bucketAdd s.chat i o t }
  | .map_generation => { s with map_generation := bucketAdd s.map_generation i o t }
  | .movement_narration => { s with movement_narration := bucketAdd s.movement_narration i o t }

/-- TokenUsageStore.add: clamp the two counts at zero, return early when
their sum is zero (through the get that still materializes the session),
else add into the source bucket and the total bucket. -/
def tokenAdd (st : TokenStore) (sessionId : String) (src : TokenSource)
    (inputTokens outputTokens : Int) : TokenStore :=
  let inT := max 0 inputTokens
  let outT := max 0 outputTokens
  let totalT := inT + outT
  if totalT = 0 then (tokenEnsure st sessionId).2
  else
    let p := tokenEnsure st sessionId
    let u := p.1
    let u2 := { u with
      sources := sourcesAdd u.sources src inT outT totalT,
      total := bucketAdd u.total inT outT totalT }
    aset p.2 sessionId u2

/-- TokenUsageStore.reset: store a fresh ledger for the session. -/
def tokenReset (st : TokenStore) (sessionId : String) : TokenStore :=
  aset st sessionId (emptyTokenUsage sessionId)

/-- One public mutation of the store. -/
inductive TokenOp where
  | add (sessionId : String) (src : TokenSource) (inputTokens outputTokens : Int)
  | reset (sessionId : String)

def applyTokenOp (st : TokenStore) : TokenOp → TokenStore
  | .add sid src i o => tokenAdd st sid src i o
  | .reset sid => tokenReset st sid

/-- The store after a sequence of operations on the initially empty store. -/
def tokenRun (ops : List TokenOp) : TokenStore :=
  ops.foldl applyTokenOp []

def bucketNonneg (b : TokenUsageBucket) : Prop :=
  0 ≤ b.input_tokens ∧ 0 ≤ b.output_tokens ∧ 0 ≤ b.total_tokens

def bucketSum3 (a b c : TokenUsageBucket) : TokenUsageBucket :=
  { input_tokens := a.input_tokens + b.input_tokens + c.input_tokens,
    output_tokens := a.output_tokens + b.output_tokens + c.output_tokens,
    total_tokens := a.total_tokens + b.total_tokens + c.total_tokens }

/-- The ledger invariant of one session: the total bucket is the
component-wise sum of the three source buckets and every counter is
non-negative. -/
def tokenLedgerInv (u : TokenUsageResponse) : Prop :=
  u.total = bucketSum3 u.sources.chat u.sources.map_generation u.sources.movement_narration
  ∧ bucketNonneg u.total ∧ bucketNonneg u.sources.chat
  ∧ bucketNonneg u.sources.map_generation ∧ bucketNonneg u.sources.movement_narration

theorem alookup_append {α : Type} (l1 l2 : List (String × α)) (k : String) :
    alookup (l1 ++ l2) k =
      match alookup l1 k with
      | some v => some v
      | none => alookup l2 k := by
  induction l1 with
  | nil => simp [alookup]
  | cons p rest ih =>
      obtain ⟨k1, v1⟩ := p
      rw [List.cons_append, alookup_cons, alookup_cons]
      by_cases h : k1 = k
      · simp [h]
      · simp [h, ih]

theorem tokenEnsure_fst (st : TokenStore) (s : String) :
    (tokenEnsure st s).1 = tokenGet st s := by
  unfold tokenEnsure tokenGet
  cases h : alookup st s <;> simp [h]

/-- _ensure only materializes the ledger a get would already report: it is
invisible to tokenGet at every session. -/
theorem tokenGet_ensure (st : TokenStore) (s q : String) :
    tokenGet (tokenEnsure st s).2 q = tokenGet st q := by
  unfold tokenEnsure
  cases h : alookup st s with
  | some u => simp
  | none =>
      simp only
      unfold tokenGet
      rw [alookup_append]
      cases hq : alookup st q with
      | some v => simp
      | none =>
          simp only
          rw [alookup_cons]
          by_cases hqs : s = q
          · subst hqs
            simp
          · simp [hqs, alookup]

/-- An add whose clamped token sum is zero changes no observable ledger. -/
theorem tokenGet_add_zero (st : TokenStore) (s q : String) (src : TokenSource)
    (i o : Int) (hz : max 0 i + max 0 o = 0) :
    tokenGet (tokenAdd st s src i o) q = tokenGet st q := by
  simp only [tokenAdd]
  rw [if_pos hz]
  exact tokenGet_ensure st s q

theorem tokenLedgerInv_empty (s : String) : tokenLedgerInv (emptyTokenUsage s) := by
  unfold tokenLedgerInv bucketNonneg bucketSum3 emptyTokenUsage tokenBucketZero
  norm_num

theorem tokenLedgerInv_bucketAdd (u : TokenUsageResponse) (src : TokenSource) (a b : Int)
    (ha : 0 ≤ a) (hb : 0 ≤ b) (h : tokenLedgerInv u) :
    tokenLedgerInv { u with
      sources := sourcesAdd u.sources src a b (a + b),
      total := bucketAdd u.total a b (a + b) } := by
  obtain ⟨sid, ⟨t1, t2, t3⟩, ⟨⟨c1, c2, c3⟩, ⟨m1, m2, m3⟩, ⟨v1, v2, v3⟩⟩⟩ := u
  obtain ⟨hsum, htot, hc, hm, hmv⟩ := h
  cases src <;>
    simp only [tokenLedgerInv, bucketNonneg, bucketSum3, sourcesAdd, bucketAdd,
      TokenUsageBucket.mk.injEq] at * <;>
    and_intros <;> omega

theorem tokenLedgerInv_addOp (st : TokenStore) (s : String) (src : TokenSource) (i o : Int)
    (hinv : ∀ x, tokenLedgerInv (tokenGet st x)) (q : String) :
    tokenLedgerInv (tokenGet (tokenAdd st s src i o) q) := by
  by_cases hz : max 0 i + max 0 o = 0
  · rw [tokenGet_add_zero st s q src i o hz]
    exact hinv q
  · simp only [tokenAdd]
    rw [if_neg hz]
    unfold tokenGet
    rw [alookup_aset]
    by_cases hq : q = s
    · rw [if_pos hq]
      simp only [Option.getD_some]
      rw [tokenEnsure_fst]
      exact tokenLedgerInv_bucketAdd (tokenGet st s) src (max 0 i) (max 0 o)
        (le_max_left 0 i) (le_max_left 0 o) (hinv s)
    · rw [if_neg hq]
      have h2 := tokenGet_ensure st s q
      unfold tokenGet at h2
      rw [h2]
      exact hinv q

theorem tokenLedgerInv_resetOp (st : TokenStore) (s : String)
    (hinv : ∀ x, tokenLedgerInv (tokenGet st x)) (q : String) :
    tokenLedgerInv (tokenGet (tokenReset st s) q) := by
  unfold tokenReset tokenGet
  rw [alookup_aset]
  by_cases hq : q = s
  · rw [if_pos hq]
    simp only [Option.getD_some]
    exact tokenLedgerInv_empty s
  · rw [if_neg hq]
    exact hinv q

/-- C10: after every sequence of add and reset operations on the initially
empty store, every session's observable ledger keeps its total bucket equal
to the component-wise sum of the three source buckets with all counters
non-negative; and an add whose clamped input plus output count is zero is
observationally a no-op on every session. -/
theorem claim_c10_token_ledger (ops : List TokenOp) (sid : String)
    (st0 : TokenStore) (q r : String) (src0 : TokenSource) (i o : Int)
    (hz : max 0 i + max 0 o = 0) :
    tokenLedgerInv (tokenGet (tokenRun ops) sid)
    ∧ tokenGet (tokenAdd st0 q src0 i o) r = tokenGet st0 r := by
  constructor
  · have main : ∀ (l : List TokenOp) (st : TokenStore),
        (∀ x, tokenLedgerInv (tokenGet st x)) →
        ∀ x, tokenLedgerInv (tokenGet (l.foldl applyTokenOp st) x) := by
      intro l
      induction l with
      | nil => exact fun st h x => h x
      | cons op rest ih =>
          intro st h x
          refine ih _ ?_ x
          intro y
          cases op with
          | add s src i2 o2 => exact tokenLedgerInv_addOp st s src i2 o2 h y
          | reset s => exact tokenLedgerInv_resetOp st s h y
    refine main ops [] ?_ sid
    intro x
    have hx : tokenGet [] x = emptyTokenUsage x := by
      unfold tokenGet alookup
      simp
    rw [hx]
    exact tokenLedgerInv_empty x
  · exact tokenGet_add_zero st0 q r src0 i o hz

def c10Ops : List TokenOp :=
  [.add "sess_a" .chat 5 7, .add "sess_a" .map_generation 3 0,
   .reset "sess_b", .add "sess_a" .movement_narration 0 2, .add "sess_b" .chat 1 1]

theorem claim_c10_token_ledger_witness :
    tokenLedgerInv (tokenGet (tokenRun c10Ops) "sess_a")
    ∧ tokenGet (tokenAdd [] "sess_a" .chat 0 0) "sess_b" = tokenGet [] "sess_b" :=
  claim_c10_token_ledger c10Ops "sess_a" [] "sess_a" "sess_b" .chat 0 0 (by decide)

/-! ## Section 7: sub-zone movement (C6, C7) -/

/-- _new_game_log: the log id and created_at derive from the wall clock,
modelled by the opaque now string. -/
def newGameLog (now sessionId kind message : String)
    (payload : List (String × LogVal)) : GameLogEntry :=
  { id := "glog_" ++ now, session_id := sessionId, kind := kind,
    message := message, payload := payload, created_at := now }

/-- _distance3d_m: the euclidean distance of two coordinates. -/
noncomputable def distance3dM (a b : Coord3D) : ℝ :=
  Real.sqrt ((a.x - b.x) * (a.x - b.x) + (a.y - b.y) * (a.y - b.y)
    + (a.z - b.z) * (a.z - b.z))

/-- round(x, 3) as applied to the reported distance. -/
noncomputable def roundTo3 (x : ℝ) : ℝ := (pyRound (x * 1000) : ℝ) / 1000

/-- The duration formula of move_to_sub_zone:
max(1, ceil((distance_m / speed_mph) * 60.0)). -/
noncomputable def travelDurationMin (distanceM : ℝ) (speedMph : Int) : Int :=
  max 1 ⌈(distanceM / (speedMph : ℝ)) * 60⌉

/-- The travel duration as the specification words it: the distance divided
by the per-minute speed move_speed_mph / 60, rounded up, with a minimum of
one minute. -/
noncomputable def specTravelDurationMin (distanceM : ℝ) (speedMph : Int) : Int :=
  max 1 ⌈distanceM / ((speedMph : ℝ) / 60)⌉

/-- The error exits of move_to_sub_zone. -/
inductive MoveError where
  | sessionMismatch
  | clockNotInit
  | subZoneNotFound
deriving DecidableEq

/-- One endpoint of a reported move. -/
structure AreaMovePoint where
  zone_id : String
  sub_zone_id : Option String
  coord : Coord3D

/-- The response payload of move_to_sub_zone. -/
structure AreaMoveResult where
  ok : Bool
  from_point : AreaMovePoint
  to_point : AreaMovePoint
  distance_m : ℝ
  duration_min : Int
  clock_delta_min : Int
  clock_after : WorldClock
  movement_feedback : String

/-- The in-place completion move_to_sub_zone applies to the target sub-zone:
an observe interaction when it has none, then a deterministic NPC stub when
it has none. -/
def ensureMoveTarget (zones : List AreaZone) (sub : AreaSubZone) : AreaSubZone :=
  let sub1 :=
    if sub.key_interactions.isEmpty then
      { sub with key_interactions :=
          [{ interaction_id := "int_" ++ sub.zone_id ++ "_observe", name := "观察周边",
             type := "scene", status := "ready", generated_mode := "pre",
             placeholder := true }] }
    else sub
  if sub1.npcs.isEmpty then
    let idn := buildNpcIdentity (zoneNameOf zones sub1.zone_id) sub1.name sub1.sub_zone_id 0
    { sub1 with npcs := [{ npc_id := idn.1, name := idn.2, state := "idle" }] }
  else sub1

/-- The alias mutation of the found target inside the snapshot list: replace
the first sub-zone carrying the id. -/
def updateFirstSub (sid : String) (f : AreaSubZone → AreaSubZone) :
    List AreaSubZone → List AreaSubZone
  | [] => []
  | s :: rest =>
      if s.sub_zone_id = sid then f s :: rest
      else s :: updateFirstSub sid f rest

/-- move_to_sub_zone on the current save. The returned save is the persisted
one: in the already-there branch nothing is written back, so the stored save
stays the input. The optional AI narration can only replace the feedback
string on success and is modelled by the deterministic fallback text. The
ValueError and KeyError exits are the explicit error cases. -/
noncomputable def moveToSubZone (now sessionId toSubZoneId : String)
    (save0 : SaveFile) : Except MoveError (SaveFile × AreaMoveResult) :=
  if save0.session_id ≠ sessionId then .error .sessionMismatch
  else
    let save := ensureAreaSnapshot now save0
    let snap := save.area_snapshot
    match snap.clock with
    | none => .error .clockNotInit
    | some clock =>
      match snap.sub_zones.find? (fun s => s.sub_zone_id == toSubZoneId) with
      | none => .error .subZoneNotFound
      | some toSub0 =>
        let toSub := ensureMoveTarget snap.zones toSub0
        let subZones := updateFirstSub toSubZoneId (fun _ => toSub) snap.sub_zones
        let snap1 := { snap with sub_zones := subZones }
        let fromPoint : AreaMovePoint :=
          match subZones.find? (fun s => some s.sub_zone_id == snap1.current_sub_zone_id) with
          | some fs =>
              { zone_id := fs.zone_id, sub_zone_id := some fs.sub_zone_id,
                coord := fs.coord }
          | none =>
              let targetZid :=
                match snap1.current_zone_id with
                | none => toSub.zone_id
                | some z => if z = "" then toSub.zone_id else z
              match snap1.zones.find? (fun z => z.zone_id == targetZid) with
              | some fz =>
                  { zone_id := fz.zone_id, sub_zone_id := none, coord := fz.center }
              | none =>
                  { zone_id := toSub.zone_id, sub_zone_id := none,
                    coord := { x := 0, y := 0, z := 0 } }
        let toPoint : AreaMovePoint :=
          { zone_id := toSub.zone_id, sub_zone_id := some toSub.sub_zone_id,
            coord := toSub.coord }
        if fromPoint.sub_zone_id = toPoint.sub_zone_id then
          .ok (save0,
            { ok := true, from_point := fromPoint, to_point := toPoint, distance_m := 0,
              duration_min := 0, clock_delta_min := 0, clock_after := clock,
              movement_feedback := "你已在【" ++ toSub.name ++ "】。" })
        else
          let distanceM := distance3dM fromPoint.coord toPoint.coord
          let speed := max 1 save.player_static_data.move_speed_mph
          let durationMin := travelDurationMin distanceM speed
          let clockAfter := advanceClock now (some clock) durationMin
          let newPos : Position :=
            { x := pyRound toSub.coord.x, y := pyRound toSub.coord.y,
              z := pyRound toSub.coord.z, zone_id := toSub.zone_id }
          let save1 :=
            { save with
              area_snapshot :=
                { snap1 with
                  current_zone_id := some toSub.zone_id,
                  current_sub_zone_id := some toSub.sub_zone_id,
                  clock := some clockAfter },
              map_snapshot :=
                { save.map_snapshot with player_position := some newPos },
              player_runtime_data :=
                { save.player_runtime_data with current_position := some newPos },
              game_logs := save.game_logs ++
                [newGameLog now sessionId "area_move"
                  ("移动到子区块【" ++ toSub.name ++ "】，耗时 " ++ toString durationMin ++ " 分钟")
                  [("to_sub_zone_id", .str toSub.sub_zone_id),
                   ("to_zone_id", .str toSub.zone_id),
                   ("duration_min", .int durationMin),
                   ("distance_m", .real (roundTo3 distanceM))]] }
          .ok (save1,
            { ok := true, from_point := fromPoint, to_point := toPoint,
              distance_m := roundTo3 distanceM, duration_min := durationMin,
              clock_delta_min := durationMin, clock_after := clockAfter,
              movement_feedback :=
                "你移动到【" ++ toSub.name ++ "】，花费 " ++ toString durationMin ++ " 分钟。" })

theorem stubComplete_sub_zone_id (zones : List AreaZone) (sub : AreaSubZone) :
    (stubComplete zones sub).sub_zone_id = sub.sub_zone_id := by
  unfold stubComplete
  split <;> rfl

theorem stubComplete_zone_id (zones : List AreaZone) (sub : AreaSubZone) :
    (stubComplete zones sub).zone_id = sub.zone_id := by
  unfold stubComplete
  split <;> rfl

theorem stubComplete_name (zones : List AreaZone) (sub : AreaSubZone) :
    (stubComplete zones sub).name = sub.name := by
  unfold stubComplete
  split <;> rfl

theorem stubComplete_coord (zones : List AreaZone) (sub : AreaSubZone) :
    (stubComplete zones sub).coord = sub.coord := by
  unfold stubComplete
  split <;> rfl

theorem stubComplete_key_interactions (zones : List AreaZone) (sub : AreaSubZone) :
    (stubComplete zones sub).key_interactions = sub.key_interactions := by
  unfold stubComplete
  split <;> rfl

theorem stubComplete_npcs_ne_nil (zones : List AreaZone) (sub : AreaSubZone) :
    (stubComplete zones sub).npcs ≠ [] := by
  unfold stubComplete
  split
  · simp
  · next h => simpa [List.isEmpty_iff] using h

theorem stubComplete_of_ne_nil (zones : List AreaZone) (sub : AreaSubZone)
    (h : sub.npcs ≠ []) : stubComplete zones sub = sub := by
  unfold stubComplete
  have hb : sub.npcs.isEmpty = false := by
    simp [List.isEmpty_iff, h]
  simp [hb]

theorem stubComplete_idem (zones : List AreaZone) (sub : AreaSubZone) :
    stubComplete zones (stubComplete zones sub) = stubComplete zones sub :=
  stubComplete_of_ne_nil zones _ (stubComplete_npcs_ne_nil zones sub)

/-- The sub-zone component of the _ensure_role_pool_from_area loop: every
sub-zone is stub-completed, in order. -/
theorem processSub_fold_fst (zones : List AreaZone) (now : String)
    (subs : List AreaSubZone) (acc : List AreaSubZone) (pool : List NpcRoleCard) :
    (subs.foldl (processSub zones now) (acc, pool)).1
      = acc ++ subs.map (stubComplete zones) := by
  induction subs generalizing acc pool with
  | nil => simp
  | cons s rest ih =>
      simp only [List.foldl_cons, List.map_cons, processSub]
      rw [ih]
      simp

/-- The save fields _ensure_role_pool_from_area leaves alone, and the
stub-completion it applies to the sub-zone list. -/
theorem ensureRolePool_proj (now : String) (s : SaveFile) :
    (ensureRolePoolFromArea now s).area_snapshot.zones = s.area_snapshot.zones
    ∧ (ensureRolePoolFromArea now s).area_snapshot.clock = s.area_snapshot.clock
    ∧ (ensureRolePoolFromArea now s).area_snapshot.current_zone_id
        = s.area_snapshot.current_zone_id
    ∧ (ensureRolePoolFromArea now s).area_snapshot.current_sub_zone_id
        = s.area_snapshot.current_sub_zone_id
    ∧ (ensureRolePoolFromArea now s).area_snapshot.sub_zones
        = s.area_snapshot.sub_zones.map (stubComplete s.area_snapshot.zones)
    ∧ (ensureRolePoolFromArea now s).session_id = s.session_id
    ∧ (ensureRolePoolFromArea now s).player_static_data = s.player_static_data
    ∧ (ensureRolePoolFromArea now s).map_snapshot = s.map_snapshot := by
  unfold ensureRolePoolFromArea
  refine ⟨rfl, rfl, rfl, rfl, ?_, rfl, rfl, rfl⟩
  simpa using processSub_fold_fst s.area_snapshot.zones now s.area_snapshot.sub_zones
    [] s.role_pool

/-- When the snapshot already has zones and a clock, _ensure_area_snapshot
is exactly the role pool engine. -/
theorem ensureAreaSnapshot_eq_active (now : String) (s : SaveFile)
    (hz : s.area_snapshot.zones ≠ []) (hc : s.area_snapshot.clock ≠ none) :
    ensureAreaSnapshot now s = ensureRolePoolFromArea now s := by
  unfold ensureAreaSnapshot
  have h1 : ¬ ((s.area_snapshot.zones.isEmpty = true)
      ∧ ¬ (s.map_snapshot.zones.isEmpty = true)) := by
    intro h
    exact hz (List.isEmpty_iff.mp h.1)
  rw [if_neg h1]
  dsimp only
  have h2 : ¬ (s.area_snapshot.clock.isNone = true) := by
    simpa [Option.isNone_iff_eq_none] using hc
  rw [if_neg h2]

/-- When the snapshot has zones but no clock, _ensure_area_snapshot defaults
the clock and then runs the role pool engine. -/
theorem ensureAreaSnapshot_eq_noclock (now : String) (s : SaveFile)
    (hz : s.area_snapshot.zones ≠ []) (hc : s.area_snapshot.clock = none) :
    ensureAreaSnapshot now s
      = ensureRolePoolFromArea now
          { s with area_snapshot :=
              { s.area_snapshot with
                clock := some (defaultWorldClock now "fantasy_default") } } := by
  unfold ensureAreaSnapshot
  have h1 : ¬ ((s.area_snapshot.zones.isEmpty = true)
      ∧ ¬ (s.map_snapshot.zones.isEmpty = true)) := by
    intro h
    exact hz (List.isEmpty_iff.mp h.1)
  rw [if_neg h1]
  dsimp only
  have h2 : s.area_snapshot.clock.isNone = true := by
    simp [Option.isNone_iff_eq_none, hc]
  rw [if_pos h2]

/-- _ensure_area_snapshot always leaves a clock in place: the rebuild
installs the default clock, the explicit default covers an absent one, and
the role pool engine does not touch it. -/
theorem clockFill_ne_none (now : String) (t : SaveFile) :
    (if t.area_snapshot.clock.isNone = true then
        { t with area_snapshot :=
            { t.area_snapshot with
              clock := some (defaultWorldClock now "fantasy_default") } }
      else t).area_snapshot.clock ≠ none := by
  split
  · simp
  · next h => simpa [Option.isNone_iff_eq_none] using h

theorem ensureAreaSnapshot_clock_ne_none (now : String) (s : SaveFile) :
    (ensureAreaSnapshot now s).area_snapshot.clock ≠ none := by
  unfold ensureAreaSnapshot
  rw [(ensureRolePool_proj now _).2.1]
  exact clockFill_ne_none now _

theorem ensureMoveTarget_of_filled (zones : List AreaZone) (sub : AreaSubZone)
    (hki : sub.key_interactions ≠ []) (hn : sub.npcs ≠ []) :
    ensureMoveTarget zones sub = sub := by
  unfold ensureMoveTarget
  have h1 : sub.key_interactions.isEmpty = false := by
    simp [List.isEmpty_iff, hki]
  have h2 : sub.npcs.isEmpty = false := by
    simp [List.isEmpty_iff, hn]
  simp [h1, h2]

/-- A player profile used by the concrete movement scenarios. -/
def scenarioPlayer : PlayerStaticData :=
  { player_id := "player_001", name := "玩家", move_speed_mph := 4500, role_type := "player",
    dnd5e_sheet :=
      { level := 1, race := "", char_class := "", background := "", alignment := "",
        proficiency_bonus := 2, armor_class := 10, speed_ft := 30, initiative_bonus := 0,
        hit_dice := "1d8", hit_points := { current := 10, maximum := 10, temporary := 0 },
        ability_scores :=
          { strength := 10, dexterity := 10, constitution := 10,
            intelligence := 14, wisdom := 10, charisma := 10 },
        saving_throws_proficient := [], skills_proficient := [], languages := [],
        tool_proficiencies := [], equipment := [], features_traits := [], spells := [],
        notes := "" } }

/-- The zone of the clockless-save scenario. -/
noncomputable def c7Zone : AreaZone :=
  { zone_id := "zone_a", name := "A区", zone_type := "city", size := "medium",
    center := { x := 0, y := 0, z := 0 }, radius_m := 120, description := "",
    sub_zone_ids := ["sub_a_1"], state := { flags := ["normal"], last_refresh_clock := "" } }

/-- The single, fully stubbed sub-zone of the clockless-save scenario. -/
noncomputable def c7Sub : AreaSubZone :=
  { sub_zone_id := "sub_a_1", zone_id := "zone_a", name := "起点",
    coord := { x := 0, y := 0, z := 0 }, radius_m := 20, description := "起点描述",
    generated_mode := "pre",
    key_interactions :=
      [{ interaction_id := "int_base", name := "观察周边", type := "scene",
         status := "ready", generated_mode := "pre", placeholder := true }],
    npcs := [{ npc_id := "npc_guard", name := "守卫", state := "idle" }],
    state := { time_segment := "day", flags := ["normal"] } }

/-- A save whose world clock has never been set: the area snapshot is
materialized but its clock is None. -/
noncomputable def c7Save : SaveFile :=
  { version := "1.1.0", session_id := "sess_a",
    map_snapshot := { player_position := none, zones := [] },
    area_snapshot :=
      { version := "0.1.0", zones := [c7Zone], sub_zones := [c7Sub],
        current_zone_id := some "zone_a", current_sub_zone_id := some "sub_a_1",
        clock := none },
    game_logs := [], game_log_settings := { ai_fetch_limit := 50 },
    player_static_data := scenarioPlayer,
    player_runtime_data :=
      { session_id := "sess_a", current_position := none, updated_at := "t" },
    role_pool := [], updated_at := "t" }

/-- The dead guard: after _ensure_area_snapshot has run, the snapshot clock
can no longer be None, so the AREA_CLOCK_NOT_INIT exit of move_to_sub_zone
can never be taken. -/
theorem move_no_clock_error (now sessionId toSubZoneId : String) (save0 : SaveFile) :
    moveToSubZone now sessionId toSubZoneId save0 ≠ Except.error MoveError.clockNotInit := by
  unfold moveToSubZone
  split
  · simp
  · dsimp only
    split
    · next heq => exact absurd heq (ensureAreaSnapshot_clock_ne_none now save0)
    · split
      · simp
      · split
        · simp
        · simp

/-- The zone of the travel-duration scenario. -/
noncomputable def c6Zone : AreaZone :=
  { zone_id := "zone_a", name := "A区", zone_type := "city", size := "medium",
    center := { x := 0, y := 0, z := 0 }, radius_m := 120, description := "",
    sub_zone_ids := ["sub_a_1", "sub_a_2"],
    state := { flags := ["normal"], last_refresh_clock := "" } }

/-- The starting sub-zone at (0, 0, 0). -/
noncomputable def c6Sub1 : AreaSubZone :=
  { sub_zone_id := "sub_a_1", zone_id := "zone_a", name := "起点",
    coord := { x := 0, y := 0, z := 0 }, radius_m := 20, description := "起点描述",
    generated_mode := "pre",
    key_interactions :=
      [{ interaction_id := "int_base", name := "观察周边", type := "scene",
         status := "ready", generated_mode := "pre", placeholder := true }],
    npcs := [{ npc_id := "npc_start", name := "起点守卫", state := "idle" }],
    state := { time_segment := "day", flags := ["normal"] } }

/-- The target sub-zone at (600, 0, 0). -/
noncomputable def c6Sub2 : AreaSubZone :=
  { sub_zone_id := "sub_a_2", zone_id := "zone_a", name := "终点",
    coord := { x := 600, y := 0, z := 0 }, radius_m := 20, description := "终点描述",
    generated_mode := "pre",
    key_interactions :=
      [{ interaction_id := "int_goal", name := "观察周边", type := "scene",
         status := "ready", generated_mode := "pre", placeholder := true }],
    npcs := [{ npc_id := "npc_goal", name := "终点守卫", state := "idle" }],
    state := { time_segment := "day", flags := ["normal"] } }

/-- The seeded clock 1024-03-14 09:30. -/
def c6Clock : WorldClock :=
  { calendar := "fantasy_default", year := 1024, month := 3, day := 14,
    hour := 9, minute := 30, updated_at := "t" }

/-- The seeded save of the travel-duration scenario: two sub-zones 600
meters apart, player speed 4500 units per hour, clock at 09:30. -/
noncomputable def c6SeedSave : SaveFile :=
  { version := "1.1.0", session_id := "sess_test_move",
    map_snapshot := { player_position := none, zones := [] },
    area_snapshot :=
      { version := "0.1.0", zones := [c6Zone], sub_zones := [c6Sub1, c6Sub2],
        current_zone_id := some "zone_a", current_sub_zone_id := some "sub_a_1",
        clock := some c6Clock },
    game_logs := [], game_log_settings := { ai_fetch_limit := 50 },
    player_static_data := scenarioPlayer,
    player_runtime_data :=
      { session_id := "sess_test_move", current_position := none, updated_at := "t" },
    role_pool := [], updated_at := "t" }

/-- The response move_to_sub_zone produces in the travel scenario, with the
distance and duration written as the formulas the code evaluates. -/
noncomputable def c6Res : AreaMoveResult :=
  { ok := true,
    from_point := { zone_id := "zone_a", sub_zone_id := some "sub_a_1", coord := c6Sub1.coord },
    to_point := { zone_id := "zone_a", sub_zone_id := some "sub_a_2", coord := c6Sub2.coord },
    distance_m := roundTo3 (distance3dM c6Sub1.coord c6Sub2.coord),
    duration_min := travelDurationMin (distance3dM c6Sub1.coord c6Sub2.coord) 4500,
    clock_delta_min := travelDurationMin (distance3dM c6Sub1.coord c6Sub2.coord) 4500,
    clock_after := advanceClock "t0" (some c6Clock)
      (travelDurationMin (distance3dM c6Sub1.coord c6Sub2.coord) 4500),
    movement_feedback := "你移动到【终点】，花费 " ++
      toString (travelDurationMin (distance3dM c6Sub1.coord c6Sub2.coord) 4500) ++ " 分钟。" }

theorem c6_dist : distance3dM c6Sub1.coord c6Sub2.coord = 600 := by
  unfold distance3dM c6Sub1 c6Sub2
  norm_num
  rw [show (360000:ℝ) = 600 ^ 2 by norm_num]
  exact Real.sqrt_sq (by norm_num)

theorem c6_dur : travelDurationMin 600 4500 = 8 := by
  unfold travelDurationMin
  have h : (600:ℝ) / ((4500:Int):ℝ) * 60 = 8 := by norm_num
  rw [h]
  norm_num

/-- C6: the travel duration of a move is max(1, ceil(distance / (speed/60)))
minutes, the code formula max(1, ceil((distance / speed) * 60)) agreeing
with the per-minute-speed reading of the specification for every positive
speed; and in the seeded scenario of two sub-zones 600 meters apart at
player speed 4500 per hour, the move takes 8 minutes and carries the 09:30
clock to 09:38. -/
theorem claim_c6_travel_duration (d : ℝ) (s : Int) (hs : 1 ≤ s) :
    travelDurationMin d s = specTravelDurationMin d s
    ∧ (∃ s2, moveToSubZone "t0" "sess_test_move" "sub_a_2" c6SeedSave = .ok (s2, c6Res))
    ∧ c6Res.duration_min = 8 ∧ c6Res.clock_delta_min = 8
    ∧ c6Res.clock_after.minute = 38 ∧ c6Res.clock_after.hour = 9 := by
  refine ⟨?_, ⟨_, rfl⟩, ?_, ?_, ?_, ?_⟩
  · unfold travelDurationMin specTravelDurationMin
    have hs0 : ((s:Int):ℝ) ≠ 0 := by
      have : (0:ℝ) < ((s:Int):ℝ) := by exact_mod_cast lt_of_lt_of_le Int.zero_lt_one hs
      exact ne_of_gt this
    have harg : d / ((s:Int):ℝ) * 60 = d / (((s:Int):ℝ) / 60) := by
      field_simp
    rw [harg]
  · show travelDurationMin (distance3dM c6Sub1.coord c6Sub2.coord) 4500 = 8
    rw [c6_dist]
    exact c6_dur
  · show travelDurationMin (distance3dM c6Sub1.coord c6Sub2.coord) 4500 = 8
    rw [c6_dist]
    exact c6_dur
  · show (advanceClock "t0" (some c6Clock)
        (travelDurationMin (distance3dM c6Sub1.coord c6Sub2.coord) 4500)).minute = 38
    rw [c6_dist, c6_dur]
    decide
  · show (advanceClock "t0" (some c6Clock)
        (travelDurationMin (distance3dM c6Sub1.coord c6Sub2.coord) 4500)).hour = 9
    rw [c6_dist, c6_dur]
    decide

theorem claim_c6_travel_duration_witness :
    travelDurationMin 0 1 = specTravelDurationMin 0 1
    ∧ (∃ s2, moveToSubZone "t0" "sess_test_move" "sub_a_2" c6SeedSave = .ok (s2, c6Res))
    ∧ c6Res.duration_min = 8 ∧ c6Res.clock_delta_min = 8
    ∧ c6Res.clock_after.minute = 38 ∧ c6Res.clock_after.hour = 9 :=
  claim_c6_travel_duration 0 1 (by norm_num)

/-- C7: the claimed precondition does not hold in the code. move_to_sub_zone
never fails with the clock-not-initialized error for any input, because
_ensure_area_snapshot, which runs first, always installs a clock; in
particular on a save whose clock has never been set the call succeeds and
moves (or keeps) the player instead of raising AREA_CLOCK_NOT_INIT. -/
theorem claim_c7_clock_check_unreachable (now sessionId toSubZoneId : String)
    (save0 : SaveFile) :
    moveToSubZone now sessionId toSubZoneId save0 ≠ Except.error MoveError.clockNotInit
    ∧ c7Save.area_snapshot.clock = none
    ∧ ∃ res, moveToSubZone "t0" "sess_a" "sub_a_1" c7Save = .ok (c7Save, res)
        ∧ res.ok = true := by
  exact ⟨move_no_clock_error now sessionId toSubZoneId save0, rfl, _, rfl, rfl⟩

theorem claim_c7_clock_check_unreachable_witness :
    moveToSubZone "t9" "sess_z" "sub_missing" c7Save
        ≠ Except.error MoveError.clockNotInit
    ∧ c7Save.area_snapshot.clock = none
    ∧ ∃ res, moveToSubZone "t0" "sess_a" "sub_a_1" c7Save = .ok (c7Save, res)
        ∧ res.ok = true :=
  claim_c7_clock_check_unreachable "t9" "sess_z" "sub_missing" c7Save

/-! ## Section 8: idempotence of the ensure pipeline (C3) -/

/-- First role card of the idempotence counterexample: its only relation
points at the player. -/
def c3Role1 : NpcRoleCard :=
  { role_id := "r1", name := "林安", zone_id := some "zone_a",
    sub_zone_id := some "sub_a_1", state := "idle", personality := "谨慎",
    speaking_style := "说话简短直接", appearance := "披着旧斗篷",
    background := "常驻", cognition := "重视秩序", alignment := "true_neutral",
    profile := { scenarioPlayer with player_id := "r1", name := "林安", role_type := "npc" },
    relations := [{ target_role_id := "player_001", relation_tag := "friend", note := "伙伴" }],
    dialogue_logs := [], generated_at := "t" }

/-- Second role card of the idempotence counterexample. -/
def c3Role2 : NpcRoleCard :=
  { role_id := "r2", name := "岳洛", zone_id := some "zone_a",
    sub_zone_id := some "sub_a_1", state := "idle", personality := "豪爽",
    speaking_style := "语速平缓，措辞克制", appearance := "佩戴铜制护符",
    background := "常驻", cognition := "重视利益交换", alignment := "neutral_good",
    profile := { scenarioPlayer with player_id := "r2", name := "岳洛", role_type := "npc" },
    relations := [{ target_role_id := "r1", relation_tag := "acquaintance", note := "旧识" }],
    dialogue_logs := [], generated_at := "t" }

/-- A save on which the ensure pipeline is not idempotent: stripping the
player-targeting relation of r1 in the first run empties it, so the second
run's relation seeding fires and links r1 to r2. -/
def c3Save : SaveFile :=
  { version := "1.1.0", session_id := "sess_c3",
    map_snapshot := { player_position := none, zones := [] },
    area_snapshot :=
      { version := "0.1.0", zones := [], sub_zones := [],
        current_zone_id := none, current_sub_zone_id := none,
        clock := some c6Clock },
    game_logs := [], game_log_settings := { ai_fetch_limit := 50 },
    player_static_data := scenarioPlayer,
    player_runtime_data :=
      { session_id := "sess_c3", current_position := none, updated_at := "t" },
    role_pool := [c3Role1, c3Role2], updated_at := "t" }

/-- C3 counterexample: running the ensure pipeline twice on c3Save changes
the role pool again on the second run, so the pipeline is not idempotent. -/
theorem claim_c3_counterexample :
    (ensureAreaSnapshot "t0" (ensureAreaSnapshot "t0" c3Save)).role_pool
      ≠ (ensureAreaSnapshot "t0" c3Save).role_pool := by
  decide

/-- The role ids of a pool, in order. -/
def poolIds (pool : List NpcRoleCard) : List String :=
  pool.map (fun r => r.role_id)

theorem poolIds_cons (r : NpcRoleCard) (rest : List NpcRoleCard) :
    poolIds (r :: rest) = r.role_id :: poolIds rest := rfl

/-- The field values phase two of the role pool engine leaves on the role
card of one NPC stub. -/
def syncedTo (sub : AreaSubZone) (npc : AreaNpc) (r : NpcRoleCard) : Prop :=
  r.name = npc.name ∧ r.zone_id = some sub.zone_id
  ∧ r.sub_zone_id = some sub.sub_zone_id ∧ r.state = npcStateOr npc.state

/-- The flattened (sub-zone, stub) pairs phase two visits, in order. -/
def syncPairs (zones : List AreaZone) : List AreaSubZone → List (AreaSubZone × AreaNpc)
  | [] => []
  | sub0 :: rest =>
      let sub := stubComplete zones sub0
      sub.npcs.map (fun n => (sub, n)) ++ syncPairs zones rest

theorem roleMapFind_cons (r : NpcRoleCard) (rest : List NpcRoleCard) (rid : String) :
    roleMapFind (r :: rest) rid
      = match roleMapFind rest rid with
        | some x => some x
        | none => if r.role_id = rid then some r else none := by
  unfold roleMapFind
  rw [List.filter_cons]
  by_cases h : r.role_id = rid
  · rw [if_pos (by simpa using h)]
    cases hl : rest.filter (fun q => q.role_id == rid) with
    | nil => simp [h]
    | cons y ys =>
        rw [List.getLast?_cons_cons]
        have hs : ((y :: ys).getLast?).isSome = true := by
          rw [List.getLast?_isSome]
          simp
        obtain ⟨a, ha⟩ := Option.isSome_iff_exists.mp hs
        rw [ha]
  · rw [if_neg (by simpa using h)]
    cases hfl : (rest.filter (fun q => q.role_id == rid)).getLast? with
    | some x => rfl
    | none => simp [h]

theorem roleMapFind_mem {pool : List NpcRoleCard} {rid : String} {r : NpcRoleCard}
    (h : roleMapFind pool rid = some r) : r ∈ pool ∧ r.role_id = rid := by
  unfold roleMapFind at h
  obtain ⟨ys, hys⟩ := List.getLast?_eq_some_iff.mp h
  have hmem : r ∈ pool.filter (fun q => q.role_id == rid) := by
    rw [hys]
    simp
  have h2 := List.mem_filter.mp hmem
  exact ⟨h2.1, by simpa using h2.2⟩

theorem roleMapFind_eq_none_iff (pool : List NpcRoleCard) (rid : String) :
    roleMapFind pool rid = none ↔ rid ∉ poolIds pool := by
  unfold roleMapFind poolIds
  rw [List.getLast?_eq_none_iff, List.filter_eq_nil_iff]
  constructor
  · intro h hmem
    obtain ⟨r, hr, hrid⟩ := List.mem_map.mp hmem
    exact h r hr (by simpa using hrid)
  · intro h r hr hbeq
    exact h (List.mem_map.mpr ⟨r, hr, by simpa using hbeq⟩)

theorem roleMapFind_append_single (pool : List NpcRoleCard) (c : NpcRoleCard)
    (rid : String) :
    roleMapFind (pool ++ [c]) rid
      = if c.role_id = rid then some c else roleMapFind pool rid := by
  unfold roleMapFind
  rw [List.filter_append]
  by_cases h : c.role_id = rid
  · rw [if_pos h]
    have hc : [c].filter (fun q => q.role_id == rid) = [c] := by simp [h]
    rw [hc, List.getLast?_concat]
  · rw [if_neg h]
    have hc : [c].filter (fun q => q.role_id == rid) = [] := by simp [h]
    rw [hc, List.append_nil]

theorem roleMapFind_updateLastRole_self (rid : String) (f : NpcRoleCard → NpcRoleCard)
    (hf : ∀ r, (f r).role_id = r.role_id) (l : List NpcRoleCard) (r : NpcRoleCard)
    (h : roleMapFind l rid = some r) :
    roleMapFind (updateLastRole rid f l) rid = some (f r) := by
  induction l with
  | nil => simp [roleMapFind] at h
  | cons a rest ih =>
      rw [roleMapFind_cons] at h
      unfold updateLastRole
      by_cases hany : rest.any (fun q => q.role_id == rid) = true
      · rw [if_pos hany]
        rw [roleMapFind_cons]
        have hsome : ∃ x, roleMapFind rest rid = some x := by
          rcases List.any_eq_true.mp hany with ⟨q, hq, hqid⟩
          cases hfind : roleMapFind rest rid with
          | some x => exact ⟨x, rfl⟩
          | none =>
              exact absurd (List.mem_map.mpr ⟨q, hq, by simpa using hqid⟩)
                ((roleMapFind_eq_none_iff rest rid).mp hfind)
        obtain ⟨x, hx⟩ := hsome
        rw [hx] at h
        obtain rfl : x = r := Option.some.inj h
        rw [ih hx]
      · rw [if_neg hany]
        have hnone : roleMapFind rest rid = none := by
          rw [roleMapFind_eq_none_iff]
          intro hmem
          obtain ⟨q, hq, hqid⟩ := List.mem_map.mp hmem
          exact hany (List.any_eq_true.mpr ⟨q, hq, by simpa using hqid⟩)
        rw [hnone] at h
        by_cases hid : a.role_id = rid
        · rw [if_pos hid] at h
          obtain rfl : a = r := Option.some.inj h
          rw [if_pos (by simpa using hid)]
          rw [roleMapFind_cons, hnone]
          rw [if_pos (by rw [hf]; exact hid)]
        · rw [if_neg hid] at h
          exact absurd h (by simp)

theorem roleMapFind_updateLastRole_ne (rid rid2 : String) (hne : rid2 ≠ rid)
    (f : NpcRoleCard → NpcRoleCard) (hf : ∀ r, (f r).role_id = r.role_id)
    (l : List NpcRoleCard) :
    roleMapFind (updateLastRole rid f l) rid2 = roleMapFind l rid2 := by
  induction l with
  | nil => rfl
  | cons a rest ih =>
      unfold updateLastRole
      by_cases hany : rest.any (fun q => q.role_id == rid) = true
      · rw [if_pos hany, roleMapFind_cons, roleMapFind_cons, ih]
      · rw [if_neg hany]
        by_cases hid : (a.role_id == rid) = true
        · rw [if_pos hid, roleMapFind_cons, roleMapFind_cons]
          cases roleMapFind rest rid2 with
          | some x => rfl
          | none =>
              have haid : a.role_id ≠ rid2 := by
                have : a.role_id = rid := by simpa using hid
                rw [this]
                exact fun hh => hne hh.symm
              rw [if_neg (by rw [hf]; exact haid), if_neg haid]
        · rw [if_neg hid]

theorem updateLastRole_id (rid : String) (f : NpcRoleCard → NpcRoleCard)
    (l : List NpcRoleCard) (h : ∀ r ∈ l, r.role_id = rid → f r = r) :
    updateLastRole rid f l = l := by
  induction l with
  | nil => rfl
  | cons a rest ih =>
      unfold updateLastRole
      by_cases hany : rest.any (fun q => q.role_id == rid) = true
      · rw [if_pos hany, ih (fun q hq hq2 => h q (List.mem_cons_of_mem _ hq) hq2)]
      · rw [if_neg hany]
        by_cases hid : (a.role_id == rid) = true
        · rw [if_pos hid, h a (List.mem_cons_self _ _) (by simpa using hid)]
        · rw [if_neg hid]

theorem updateLastRole_mem (rid : String) (f : NpcRoleCard → NpcRoleCard)
    (l : List NpcRoleCard) :
    ∀ x ∈ updateLastRole rid f l, x ∈ l ∨ ∃ y ∈ l, x = f y := by
  induction l with
  | nil => intro x hx; cases hx
  | cons a rest ih =>
      intro x hx
      unfold updateLastRole at hx
      by_cases hany : rest.any (fun q => q.role_id == rid) = true
      · rw [if_pos hany] at hx
        rcases List.mem_cons.mp hx with rfl | hx2
        · exact Or.inl (List.mem_cons_self _ _)
        · rcases ih x hx2 with h1 | ⟨y, hy, hxy⟩
          · exact Or.inl (List.mem_cons_of_mem _ h1)
          · exact Or.inr ⟨y, List.mem_cons_of_mem _ hy, hxy⟩
      · rw [if_neg hany] at hx
        by_cases hid : (a.role_id == rid) = true
        · rw [if_pos hid] at hx
          rcases List.mem_cons.mp hx with rfl | hx2
          · exact Or.inr ⟨a, List.mem_cons_self _ _, rfl⟩
          · exact Or.inl (List.mem_cons_of_mem _ hx2)
        · rw [if_neg hid] at hx
          exact Or.inl hx

theorem poolIds_updateLastRole (rid : String) (f : NpcRoleCard → NpcRoleCard)
    (hf : ∀ r, (f r).role_id = r.role_id) (l : List NpcRoleCard) :
    poolIds (updateLastRole rid f l) = poolIds l := by
  induction l with
  | nil => rfl
  | cons a rest ih =>
      unfold updateLastRole
      by_cases hany : rest.any (fun q => q.role_id == rid) = true
      · rw [if_pos hany, poolIds_cons, poolIds_cons, ih]
      · rw [if_neg hany]
        by_cases hid : (a.role_id == rid) = true
        · rw [if_pos hid, poolIds_cons, poolIds_cons, hf]
        · rw [if_neg hid]

theorem nodup_unique_id {pool : List NpcRoleCard} (hnd : (poolIds pool).Nodup)
    {q1 q2 : NpcRoleCard} (h1 : q1 ∈ pool) (h2 : q2 ∈ pool)
    (heq : q1.role_id = q2.role_id) : q1 = q2 := by
  induction pool with
  | nil => cases h1
  | cons a rest ih =>
      rw [poolIds_cons, List.nodup_cons] at hnd
      rcases List.mem_cons.mp h1 with rfl | h1t
      · rcases List.mem_cons.mp h2 with rfl | h2t
        · rfl
        · exact absurd (heq ▸ List.mem_map.mpr ⟨q2, h2t, rfl⟩) hnd.1
      · rcases List.mem_cons.mp h2 with rfl | h2t
        · exact absurd (heq ▸ List.mem_map.mpr ⟨q1, h1t, rfl⟩) hnd.1
        · exact ih hnd.2 h1t h2t

theorem roleSyncFields_id (sub : AreaSubZone) (npc : AreaNpc) (r : NpcRoleCard)
    (h : syncedTo sub npc r) : roleSyncFields sub npc r = r := by
  obtain ⟨h1, h2, h3, h4⟩ := h
  unfold roleSyncFields
  cases r
  simp_all

/-- The invariant of the phase-two synchronization fold: distinct role ids,
ids are exactly the initial ones plus the processed stub ids, every
processed stub's card carries the synchronized field values, and every
card's relation list is empty or inherited verbatim from the initial pool. -/
def SyncInv (pool0 : List NpcRoleCard) (done : List (AreaSubZone × AreaNpc))
    (pool : List NpcRoleCard) : Prop :=
  (poolIds pool).Nodup
  ∧ (∀ id0 : String, id0 ∈ poolIds pool
      ↔ (id0 ∈ poolIds pool0 ∨ id0 ∈ done.map (fun p => p.2.npc_id)))
  ∧ (∀ p ∈ done, ∃ r, roleMapFind pool p.2.npc_id = some r ∧ syncedTo p.1 p.2 r)
  ∧ (∀ r ∈ pool, r.relations = [] ∨ ∃ r0 ∈ pool0, r.relations = r0.relations)

theorem syncInv_step (zones : List AreaZone) (now : String) (pool0 : List NpcRoleCard)
    (done : List (AreaSubZone × AreaNpc)) (pool : List NpcRoleCard)
    (pr : AreaSubZone × AreaNpc)
    (hfresh : pr.2.npc_id ∉ done.map (fun p => p.2.npc_id))
    (hinv : SyncInv pool0 done pool) :
    SyncInv pool0 (done ++ [pr]) (syncNpcStep zones now pr.1 pool pr.2) := by
  obtain ⟨hnd, hids, hdone, hrels⟩ := hinv
  unfold syncNpcStep
  cases hfind : roleMapFind pool pr.2.npc_id with
  | none =>
      have hnotin : pr.2.npc_id ∉ poolIds pool :=
        (roleMapFind_eq_none_iff _ _).mp hfind
      refine ⟨?_, ?_, ?_, ?_⟩
      · unfold poolIds at *
        rw [List.map_append, List.nodup_append]
        refine ⟨hnd, by simp, ?_⟩
        intro a ha hamem
        have : a = pr.2.npc_id := by simpa using hamem
        exact hnotin (this ▸ ha)
      · intro id0
        unfold poolIds at *
        rw [List.map_append, List.mem_append, List.map_append, hids id0]
        simp only [List.map_cons, List.map_nil, List.mem_singleton, List.mem_append]
        tauto
      · intro p hp
        rcases List.mem_append.mp hp with hpd | hpnew
        · obtain ⟨r, hr, hs⟩ := hdone p hpd
          refine ⟨r, ?_, hs⟩
          rw [roleMapFind_append_single]
          rw [if_neg ?_]
          · exact hr
          · intro hEq
            have hEq2 : pr.2.npc_id = p.2.npc_id := hEq
            rw [hEq2] at hfresh
            exact hfresh (List.mem_map.mpr ⟨p, hpd, rfl⟩)
        · have hppr : p = pr := by simpa using hpnew
          subst hppr
          refine ⟨buildRoleCard now zones p.1 p.2, ?_, rfl, rfl, rfl, rfl⟩
          have hc : (buildRoleCard now zones p.1 p.2).role_id = p.2.npc_id := rfl
          rw [roleMapFind_append_single, if_pos hc]
      · intro r hr
        rcases List.mem_append.mp hr with h1 | h2
        · exact hrels r h1
        · have : r = buildRoleCard now zones pr.1 pr.2 := by simpa using h2
          subst this
          exact Or.inl rfl
  | some r0 =>
      have hf : ∀ q, (roleSyncFields pr.1 pr.2 q).role_id = q.role_id := fun q => rfl
      have hin : pr.2.npc_id ∈ poolIds pool := by
        obtain ⟨hmem, hid⟩ := roleMapFind_mem hfind
        exact hid ▸ List.mem_map.mpr ⟨r0, hmem, rfl⟩
      refine ⟨?_, ?_, ?_, ?_⟩
      · rw [poolIds_updateLastRole _ _ hf]
        exact hnd
      · intro id0
        rw [poolIds_updateLastRole _ _ hf]
        rw [hids pr.2.npc_id] at hin
        rw [hids id0]
        simp only [List.map_append, List.map_cons, List.map_nil, List.mem_append,
          List.mem_singleton]
        constructor
        · intro hcase
          tauto
        · intro hcase
          rcases hcase with h | h | h
          · exact Or.inl h
          · exact Or.inr h
          · subst h
            tauto
      · intro p hp
        rcases List.mem_append.mp hp with hpd | hpnew
        · obtain ⟨r, hr, hs⟩ := hdone p hpd
          refine ⟨r, ?_, hs⟩
          rw [roleMapFind_updateLastRole_ne _ _ ?_ _ hf]
          · exact hr
          · intro hEq
            exact hfresh (hEq ▸ List.mem_map.mpr ⟨p, hpd, rfl⟩)
        · have hppr : p = pr := by simpa using hpnew
          subst hppr
          refine ⟨roleSyncFields p.1 p.2 r0, ?_, rfl, rfl, rfl, rfl⟩
          exact roleMapFind_updateLastRole_self _ _ hf _ _ hfind
      · intro r hr
        rcases updateLastRole_mem _ _ _ r hr with h1 | ⟨y, hy, hxy⟩
        · exact hrels r h1
        · subst hxy
          rcases hrels y hy with h | ⟨r0', hr0, heq⟩
          · exact Or.inl h
          · exact Or.inr ⟨r0', hr0, heq⟩

theorem syncFold_inv (zones : List AreaZone) (now : String) (pool0 : List NpcRoleCard)
    (todo : List (AreaSubZone × AreaNpc)) :
    ∀ (done : List (AreaSubZone × AreaNpc)) (pool : List NpcRoleCard),
      (((done ++ todo).map (fun p => p.2.npc_id)).Nodup) →
      SyncInv pool0 done pool →
      SyncInv pool0 (done ++ todo)
        (todo.foldl (fun p pr => syncNpcStep zones now pr.1 p pr.2) pool) := by
  induction todo with
  | nil =>
      intro done pool hnd hinv
      simpa using hinv
  | cons pr rest ih =>
      intro done pool hnd hinv
      have hfresh : pr.2.npc_id ∉ done.map (fun p => p.2.npc_id) := by
        rw [List.map_append] at hnd
        rcases List.nodup_append.mp hnd with ⟨h1, h2, hdisj⟩
        intro hmem
        exact hdisj hmem (by simp)
      have hstep := syncInv_step zones now pool0 done pool pr hfresh hinv
      have hnd2 : (((done ++ [pr]) ++ rest).map (fun p => p.2.npc_id)).Nodup := by
        simpa [List.append_assoc] using hnd
      have hres := ih (done ++ [pr]) _ hnd2 hstep
      simpa [List.append_assoc] using hres

theorem syncFold_post (zones : List AreaZone) (now : String)
    (pairs : List (AreaSubZone × AreaNpc)) (pool0 : List NpcRoleCard)
    (hndp : (pairs.map (fun p => p.2.npc_id)).Nodup)
    (hnd0 : (poolIds pool0).Nodup) :
    SyncInv pool0 pairs
      (pairs.foldl (fun p pr => syncNpcStep zones now pr.1 p pr.2) pool0) := by
  have init : SyncInv pool0 [] pool0 := by
    refine ⟨hnd0, fun id0 => by simp, by simp, fun r hr => Or.inr ⟨r, hr, rfl⟩⟩
  simpa using syncFold_inv zones now pool0 pairs [] pool0 (by simpa using hndp) init

theorem syncFold_id (zones : List AreaZone) (now : String)
    (pairs : List (AreaSubZone × AreaNpc)) (pool : List NpcRoleCard)
    (hnd : (poolIds pool).Nodup)
    (h : ∀ p ∈ pairs, ∃ r, roleMapFind pool p.2.npc_id = some r ∧ syncedTo p.1 p.2 r) :
    pairs.foldl (fun p pr => syncNpcStep zones now pr.1 p pr.2) pool = pool := by
  induction pairs with
  | nil => rfl
  | cons pr rest ih =>
      obtain ⟨r, hr, hsync⟩ := h pr (List.mem_cons_self _ _)
      have hstep : syncNpcStep zones now pr.1 pool pr.2 = pool := by
        unfold syncNpcStep
        rw [hr]
        apply updateLastRole_id
        intro q hq hqid
        have hq_eq_r : q = r := by
          obtain ⟨hrmem, hrid⟩ := roleMapFind_mem hr
          exact nodup_unique_id hnd hq hrmem (by rw [hqid, hrid])
        subst hq_eq_r
        exact roleSyncFields_id _ _ _ hsync
      rw [List.foldl_cons, hstep]
      exact ih (fun p hp => h p (List.mem_cons_of_mem _ hp))

/-- Agreement of two role cards on everything outside the relation list
that phase three and four may rewrite. -/
def sameSyncFields (a b : NpcRoleCard) : Prop :=
  b.role_id = a.role_id ∧ b.name = a.name ∧ b.zone_id = a.zone_id
  ∧ b.sub_zone_id = a.sub_zone_id ∧ b.state = a.state

theorem seedRelationsFor_fields (ids : List String) (i : Nat) (r : NpcRoleCard) :
    (seedRelationsFor ids i r).role_id = r.role_id
    ∧ (seedRelationsFor ids i r).name = r.name
    ∧ (seedRelationsFor ids i r).zone_id = r.zone_id
    ∧ (seedRelationsFor ids i r).sub_zone_id = r.sub_zone_id
    ∧ (seedRelationsFor ids i r).state = r.state := by
  unfold seedRelationsFor
  dsimp only
  split_ifs <;> exact ⟨rfl, rfl, rfl, rfl, rfl⟩

/-- The composite of phases three and four written as one indexed map. -/
theorem strip_seed_eq_enum_map (pid : String) (pool : List NpcRoleCard) :
    stripPlayerRelations pid (seedRelations pool)
      = pool.enum.map (fun p =>
          let r := seedRelationsFor (poolIds pool) p.1 p.2
          { r with relations :=
              r.relations.filter (fun e => e.target_role_id != pid) }) := by
  unfold stripPlayerRelations seedRelations poolIds
  rw [List.map_map]
  rfl

theorem poolIds_strip (pid : String) (pool : List NpcRoleCard) :
    poolIds (stripPlayerRelations pid pool) = poolIds pool := by
  unfold poolIds stripPlayerRelations
  rw [List.map_map]
  rfl

theorem poolIds_enumFrom_map (g : Nat → NpcRoleCard → NpcRoleCard)
    (hg : ∀ i r, (g i r).role_id = r.role_id) (l : List NpcRoleCard) :
    ∀ n : Nat, poolIds ((List.enumFrom n l).map (fun p => g p.1 p.2)) = poolIds l := by
  induction l with
  | nil => intro n; rfl
  | cons r rest ih =>
      intro n
      rw [List.enumFrom_cons, List.map_cons, poolIds_cons, poolIds_cons, hg, ih (n + 1)]

theorem poolIds_seed (pool : List NpcRoleCard) :
    poolIds (seedRelations pool) = poolIds pool := by
  unfold seedRelations
  dsimp only
  exact poolIds_enumFrom_map
    (fun i r => seedRelationsFor (pool.map (fun q => q.role_id)) i r)
    (fun i r => (seedRelationsFor_fields _ i r).1) pool 0

theorem enumFrom_map_fixed (g : Nat → NpcRoleCard → NpcRoleCard) :
    ∀ (l : List NpcRoleCard) (n : Nat),
      (∀ i (hi : i < l.length), g (n + i) (l.get ⟨i, hi⟩) = l.get ⟨i, hi⟩) →
      (List.enumFrom n l).map (fun p => g p.1 p.2) = l := by
  intro l
  induction l with
  | nil => intro n _; rfl
  | cons r rest ih =>
      intro n h
      rw [List.enumFrom_cons, List.map_cons]
      have h0 : g n r = r := by
        have := h 0 (by simp)
        simpa using this
      rw [h0]
      congr 1
      apply ih (n + 1)
      intro i hi
      have hstep := h (i + 1) (by simpa using Nat.succ_lt_succ hi)
      have harith : n + (i + 1) = n + 1 + i := by omega
      rw [harith] at hstep
      simpa using hstep

theorem strip_seed_length (pid : String) (pool : List NpcRoleCard) :
    (stripPlayerRelations pid (seedRelations pool)).length = pool.length := by
  unfold stripPlayerRelations seedRelations
  simp

theorem strip_seed_get (pid : String) (pool : List NpcRoleCard) (i : Nat)
    (hi : i < (stripPlayerRelations pid (seedRelations pool)).length)
    (hi2 : i < pool.length) :
    (stripPlayerRelations pid (seedRelations pool)).get ⟨i, hi⟩
      = (let r := seedRelationsFor (poolIds pool) i (pool.get ⟨i, hi2⟩)
         { r with relations :=
             r.relations.filter (fun e => e.target_role_id != pid) }) := by
  have hrw := strip_seed_eq_enum_map pid pool
  have hi3 : i < (pool.enum.map (fun p =>
      let r := seedRelationsFor (poolIds pool) p.1 p.2
      { r with relations :=
          r.relations.filter (fun e => e.target_role_id != pid) })).length := by
    rw [← hrw]
    exact hi
  have h2 := List.get_of_eq hrw ⟨i, hi⟩
  rw [h2]
  simp [List.get_eq_getElem, List.getElem_map, List.getElem_enum]

theorem getD_mem_of_lt (ids : List String) (j : Nat) (hj : j < ids.length) :
    ids.getD j "" ∈ ids := by
  rw [List.getD_eq_getElem?_getD, List.getElem?_eq_getElem hj]
  exact List.getElem_mem hj

theorem seedRelationsFor_skip_rel (ids : List String) (i : Nat) (r : NpcRoleCard)
    (h : r.relations ≠ []) : seedRelationsFor ids i r = r := by
  unfold seedRelationsFor
  rw [if_pos h]

theorem seedRelationsFor_skip_len (ids : List String) (i : Nat) (r : NpcRoleCard)
    (h : r.relations = []) (hlen : ids.length ≤ 1) : seedRelationsFor ids i r = r := by
  unfold seedRelationsFor
  rw [if_neg (fun hc => hc h), if_pos hlen]

theorem seedRelationsFor_seeds (ids : List String) (i : Nat) (r : NpcRoleCard)
    (hrel : r.relations = []) (hlen : ¬ ids.length ≤ 1)
    (hne : ids.getD ((i + 1) % ids.length) "" ≠ r.role_id) :
    (seedRelationsFor ids i r).relations ≠ []
    ∧ ∀ t ∈ (seedRelationsFor ids i r).relations,
        t.target_role_id = ids.getD ((i + 1) % ids.length) ""
        ∨ t.target_role_id = ids.getD ((i + 2) % ids.length) "" := by
  unfold seedRelationsFor
  rw [if_neg (fun hc => hc hrel), if_neg hlen]
  dsimp only
  rw [if_neg hne]
  split_ifs with h1 h2
  · refine ⟨by simp, ?_⟩
    intro t ht
    simp at ht
    rcases ht with rfl | rfl
    · exact Or.inl (by simp [List.getD_eq_getElem?_getD])
    · exact Or.inr (by simp [List.getD_eq_getElem?_getD])
  · refine ⟨by simp, ?_⟩
    intro t ht
    simp at ht
    subst ht
    exact Or.inl (by simp [List.getD_eq_getElem?_getD])
  · refine ⟨by simp, ?_⟩
    intro t ht
    simp at ht
    subst ht
    exact Or.inl (by simp [List.getD_eq_getElem?_getD])

theorem seed_pointwise_fixed (pid : String) (pool1 : List NpcRoleCard)
    (hnd : (poolIds pool1).Nodup) (hpid : pid ∉ poolIds pool1)
    (hrels : ∀ r ∈ pool1, r.relations ≠ [] →
        r.relations.filter (fun e => e.target_role_id != pid) ≠ [])
    (i : Nat) (hi2 : i < pool1.length) :
    seedRelationsFor (poolIds pool1) i
        (let r := seedRelationsFor (poolIds pool1) i (pool1.get ⟨i, hi2⟩)
         { r with relations := r.relations.filter (fun e => e.target_role_id != pid) })
      = (let r := seedRelationsFor (poolIds pool1) i (pool1.get ⟨i, hi2⟩)
         { r with relations :=
             r.relations.filter (fun e => e.target_role_id != pid) }) := by
  dsimp only
  set ids := poolIds pool1 with hidsdef
  set r1 := pool1.get ⟨i, hi2⟩ with hr1def
  set s := seedRelationsFor ids i r1 with hsdef
  set e : NpcRoleCard :=
    { s with relations := s.relations.filter (fun q => q.target_role_id != pid) }
    with hedef
  have herel : e.relations = s.relations.filter (fun q => q.target_role_id != pid) := rfl
  have hr1mem : r1 ∈ pool1 := by
    rw [hr1def]
    exact List.get_mem pool1 i hi2
  by_cases he : e.relations = []
  · by_cases hp : r1.relations = []
    · by_cases hlen : ids.length ≤ 1
      · exact seedRelationsFor_skip_len ids i e he hlen
      · exfalso
        have hleni : ids.length = pool1.length := by
          rw [hidsdef]
          simp [poolIds]
        have hlen0 : 0 < ids.length := by omega
        have hj : (i + 1) % ids.length < ids.length := Nat.mod_lt _ hlen0
        have hii : i < ids.length := by omega
        have hgi : ids.get ⟨i, hii⟩ = r1.role_id := by
          show (poolIds pool1).get ⟨i, hii⟩ = (pool1.get ⟨i, hi2⟩).role_id
          simp [poolIds, List.get_eq_getElem, List.getElem_map]
        have hji : (i + 1) % ids.length ≠ i := by
          rcases Nat.lt_or_ge (i + 1) ids.length with hlt | hge
          · rw [Nat.mod_eq_of_lt hlt]
            omega
          · have hEq : i + 1 = ids.length := by omega
            rw [hEq, Nat.mod_self]
            omega
        have hne : ids.getD ((i + 1) % ids.length) "" ≠ r1.role_id := by
          rw [List.getD_eq_getElem?_getD, List.getElem?_eq_getElem hj]
          intro hbad
          have hbad2 : ids.get ⟨(i + 1) % ids.length, hj⟩ = ids.get ⟨i, hii⟩ := by
            rw [hgi]
            simpa using hbad
          have := (List.Nodup.getElem_inj_iff hnd).mp (by simpa [List.get_eq_getElem] using hbad2)
          exact hji this
        obtain ⟨hsne, htargets⟩ := seedRelationsFor_seeds ids i r1 hp hlen hne
        have hkeep : s.relations.filter (fun q => q.target_role_id != pid) = s.relations := by
          rw [List.filter_eq_self]
          intro t ht
          have hmem : t.target_role_id ∈ ids := by
            rcases htargets t ht with h | h
            · rw [h]
              exact getD_mem_of_lt ids _ hj
            · rw [h]
              exact getD_mem_of_lt ids _ (Nat.mod_lt _ hlen0)
          have : t.target_role_id ≠ pid := fun hq => hpid (hq ▸ hmem)
          simpa using this
        rw [herel, hkeep] at he
        exact hsne he
    · exfalso
      have hs : s = r1 := seedRelationsFor_skip_rel ids i r1 hp
      rw [herel, hs] at he
      exact hrels r1 hr1mem hp he
  · exact seedRelationsFor_skip_rel ids i e he

theorem seedRelations_fixed_of_pointwise (pool : List NpcRoleCard)
    (h : ∀ i (hi : i < pool.length),
      seedRelationsFor (poolIds pool) i (pool.get ⟨i, hi⟩) = pool.get ⟨i, hi⟩) :
    seedRelations pool = pool := by
  unfold seedRelations
  dsimp only
  show (List.enumFrom 0 pool).map (fun p => seedRelationsFor (poolIds pool) p.1 p.2) = pool
  apply enumFrom_map_fixed
  intro i hi
  simpa using h i hi

theorem seed_strip_fixed (pid : String) (pool1 : List NpcRoleCard)
    (hnd : (poolIds pool1).Nodup) (hpid : pid ∉ poolIds pool1)
    (hrels : ∀ r ∈ pool1, r.relations ≠ [] →
        r.relations.filter (fun e => e.target_role_id != pid) ≠ []) :
    seedRelations (stripPlayerRelations pid (seedRelations pool1))
      = stripPlayerRelations pid (seedRelations pool1) := by
  apply seedRelations_fixed_of_pointwise
  intro i hi
  have hi2 : i < pool1.length := by
    have hlen := strip_seed_length pid pool1
    omega
  have hidsF : poolIds (stripPlayerRelations pid (seedRelations pool1)) = poolIds pool1 := by
    rw [poolIds_strip, poolIds_seed]
  rw [hidsF, strip_seed_get pid pool1 i hi hi2]
  exact seed_pointwise_fixed pid pool1 hnd hpid hrels i hi2

theorem stripPlayerRelations_idem (pid : String) (pool : List NpcRoleCard) :
    stripPlayerRelations pid (stripPlayerRelations pid pool)
      = stripPlayerRelations pid pool := by
  unfold stripPlayerRelations
  rw [List.map_map]
  apply List.map_congr_left
  intro r hr
  have hff : List.filter (fun e => e.target_role_id != pid)
      (List.filter (fun e => e.target_role_id != pid) r.relations)
      = List.filter (fun e => e.target_role_id != pid) r.relations := by
    rw [List.filter_filter]
    apply List.filter_congr
    intro a ha
    exact Bool.and_self _
  simp only [Function.comp]
  simp [hff]

theorem poolIds_forall₂ {l l2 : List NpcRoleCard}
    (h : List.Forall₂ sameSyncFields l l2) : poolIds l2 = poolIds l := by
  induction h with
  | nil => rfl
  | cons hab htail ih => rw [poolIds_cons, poolIds_cons, ih, hab.1]

theorem sameSyncFields_seed_strip (pid : String) (ids : List String) (i : Nat)
    (r : NpcRoleCard) :
    sameSyncFields r
      (let q := seedRelationsFor ids i r
       { q with relations := q.relations.filter (fun e => e.target_role_id != pid) }) := by
  obtain ⟨h1, h2, h3, h4, h5⟩ := seedRelationsFor_fields ids i r
  exact ⟨h1, h2, h3, h4, h5⟩

theorem forall₂_enumFrom_map (g : Nat → NpcRoleCard → NpcRoleCard)
    (hg : ∀ i r, sameSyncFields r (g i r)) (l : List NpcRoleCard) :
    ∀ n : Nat,
      List.Forall₂ sameSyncFields l ((List.enumFrom n l).map (fun p => g p.1 p.2)) := by
  induction l with
  | nil => intro n; exact List.Forall₂.nil
  | cons r rest ih =>
      intro n
      rw [List.enumFrom_cons, List.map_cons]
      exact List.Forall₂.cons (hg n r) (ih (n + 1))

theorem forall₂_strip_seed (pid : String) (pool : List NpcRoleCard) :
    List.Forall₂ sameSyncFields pool (stripPlayerRelations pid (seedRelations pool)) := by
  rw [strip_seed_eq_enum_map]
  exact forall₂_enumFrom_map _
    (fun i r => sameSyncFields_seed_strip pid (poolIds pool) i r) pool 0

theorem roleMapFind_forall₂ {l l2 : List NpcRoleCard}
    (h : List.Forall₂ sameSyncFields l l2) (rid : String) :
    ∀ r, roleMapFind l rid = some r →
      ∃ q, roleMapFind l2 rid = some q ∧ sameSyncFields r q := by
  induction h with
  | nil =>
      intro r hr
      simp [roleMapFind] at hr
  | @cons a b l1 l2t hab htail ih =>
      intro r hr
      rw [roleMapFind_cons] at hr
      rw [roleMapFind_cons]
      cases hfl : roleMapFind l1 rid with
      | some x =>
          rw [hfl] at hr
          obtain rfl : x = r := Option.some.inj hr
          obtain ⟨q, hq, hsq⟩ := ih x hfl
          rw [hq]
          exact ⟨q, rfl, hsq⟩
      | none =>
          rw [hfl] at hr
          have hfl2 : roleMapFind l2t rid = none := by
            rw [roleMapFind_eq_none_iff, poolIds_forall₂ htail]
            exact (roleMapFind_eq_none_iff l1 rid).mp hfl
          rw [hfl2]
          by_cases hid : a.role_id = rid
          · rw [if_pos hid] at hr
            obtain rfl : a = r := Option.some.inj hr
            rw [if_pos (by rw [hab.1]; exact hid)]
            exact ⟨b, rfl, hab⟩
          · rw [if_neg hid] at hr
            exact absurd hr (by simp)

theorem syncPairs_stub (zones : List AreaZone) (subs : List AreaSubZone) :
    syncPairs zones (subs.map (stubComplete zones)) = syncPairs zones subs := by
  induction subs with
  | nil => rfl
  | cons s rest ih =>
      simp only [List.map_cons, syncPairs]
      rw [ih, stubComplete_idem]

theorem processSub_fold_snd (zones : List AreaZone) (now : String)
    (subs : List AreaSubZone) (acc : List AreaSubZone) (pool : List NpcRoleCard) :
    (subs.foldl (processSub zones now) (acc, pool)).2
      = (syncPairs zones subs).foldl
          (fun p pr => syncNpcStep zones now pr.1 p pr.2) pool := by
  induction subs generalizing acc pool with
  | nil => rfl
  | cons s rest ih =>
      simp only [List.foldl_cons, processSub, syncPairs]
      rw [ih, List.foldl_append, List.foldl_map]

theorem ensureRolePool_fixed (now : String) (t : SaveFile)
    (hsub : t.area_snapshot.sub_zones.map (stubComplete t.area_snapshot.zones)
        = t.area_snapshot.sub_zones)
    (hpool : stripPlayerRelations t.player_static_data.player_id
        (seedRelations
          ((syncPairs t.area_snapshot.zones t.area_snapshot.sub_zones).foldl
            (fun p pr => syncNpcStep t.area_snapshot.zones now pr.1 p pr.2)
            t.role_pool))
        = t.role_pool) :
    ensureRolePoolFromArea now t = t := by
  unfold ensureRolePoolFromArea
  dsimp only
  rw [processSub_fold_fst, processSub_fold_snd, List.nil_append, hsub, hpool]

theorem ensureRolePool_idem (now1 now2 : String) (s : SaveFile)
    (hpool : (poolIds s.role_pool).Nodup)
    (hnpc : ((syncPairs s.area_snapshot.zones s.area_snapshot.sub_zones).map
        (fun p => p.2.npc_id)).Nodup)
    (hpp : s.player_static_data.player_id ∉ poolIds s.role_pool)
    (hpn : s.player_static_data.player_id
        ∉ (syncPairs s.area_snapshot.zones s.area_snapshot.sub_zones).map
            (fun p => p.2.npc_id))
    (hrel : ∀ r ∈ s.role_pool, r.relations ≠ [] →
        r.relations.filter
          (fun e => e.target_role_id != s.player_static_data.player_id) ≠ []) :
    ensureRolePoolFromArea now2 (ensureRolePoolFromArea now1 s)
      = ensureRolePoolFromArea now1 s := by
  obtain ⟨hpz, hpc, hpcz, hpcs, hpsub, hpsess, hppl, hpm⟩ := ensureRolePool_proj now1 s
  have hT_pool : (ensureRolePoolFromArea now1 s).role_pool
      = stripPlayerRelations s.player_static_data.player_id
          (seedRelations
            ((syncPairs s.area_snapshot.zones s.area_snapshot.sub_zones).foldl
              (fun p pr => syncNpcStep s.area_snapshot.zones now1 pr.1 p pr.2)
              s.role_pool)) := by
    unfold ensureRolePoolFromArea
    dsimp only
    rw [processSub_fold_snd]
  have hinv := syncFold_post s.area_snapshot.zones now1
    (syncPairs s.area_snapshot.zones s.area_snapshot.sub_zones) s.role_pool hnpc hpool
  obtain ⟨hnd1, hids1, hdone1, hrels1⟩ := hinv
  have hpid1 : s.player_static_data.player_id
      ∉ poolIds ((syncPairs s.area_snapshot.zones s.area_snapshot.sub_zones).foldl
          (fun p pr => syncNpcStep s.area_snapshot.zones now1 pr.1 p pr.2)
          s.role_pool) := by
    intro hmem
    rcases (hids1 _).mp hmem with h | h
    · exact hpp h
    · exact hpn h
  have hrels1t : ∀ r ∈ (syncPairs s.area_snapshot.zones s.area_snapshot.sub_zones).foldl
      (fun p pr => syncNpcStep s.area_snapshot.zones now1 pr.1 p pr.2) s.role_pool,
      r.relations ≠ [] →
      r.relations.filter
        (fun e => e.target_role_id != s.player_static_data.player_id) ≠ [] := by
    intro r hr hne
    rcases hrels1 r hr with h | ⟨r0, hr0, heq⟩
    · exact absurd h hne
    · rw [heq]
      exact hrel r0 hr0 (heq ▸ hne)
  apply ensureRolePool_fixed
  · rw [hpsub, hpz, List.map_map]
    apply List.map_congr_left
    intro sub hsubmem
    exact stubComplete_idem _ _
  · rw [hpz, hpsub, hppl, hT_pool, syncPairs_stub]
    have hndF1 : (poolIds (stripPlayerRelations s.player_static_data.player_id
        (seedRelations ((syncPairs s.area_snapshot.zones s.area_snapshot.sub_zones).foldl
          (fun p pr => syncNpcStep s.area_snapshot.zones now1 pr.1 p pr.2)
          s.role_pool)))).Nodup := by
      rw [poolIds_strip, poolIds_seed]
      exact hnd1
    have hsyncF1 : ∀ p ∈ syncPairs s.area_snapshot.zones s.area_snapshot.sub_zones,
        ∃ r, roleMapFind (stripPlayerRelations s.player_static_data.player_id
            (seedRelations ((syncPairs s.area_snapshot.zones s.area_snapshot.sub_zones).foldl
              (fun q pr => syncNpcStep s.area_snapshot.zones now1 pr.1 q pr.2)
              s.role_pool))) p.2.npc_id = some r
          ∧ syncedTo p.1 p.2 r := by
      intro p hp
      obtain ⟨r, hr, hs⟩ := hdone1 p hp
      obtain ⟨q, hq, hsq⟩ := roleMapFind_forall₂ (forall₂_strip_seed _ _) p.2.npc_id r hr
      refine ⟨q, hq, ?_⟩
      obtain ⟨e1, e2, e3, e4, e5⟩ := hsq
      obtain ⟨f1, f2, f3, f4⟩ := hs
      exact ⟨e2.trans f1, e3.trans f2, e4.trans f3, e5.trans f4⟩
    rw [syncFold_id _ _ _ _ hndF1 hsyncF1]
    rw [seed_strip_fixed _ _ hnd1 hpid1 hrels1t]
    exact stripPlayerRelations_idem _ _

/-- C3 amended: on a save whose area snapshot is already materialized with a
clock, whose role pool carries distinct role ids not containing the player
id, whose stub-completed sub-zones carry distinct NPC ids not containing the
player id, and in which no role's nonempty relation list consists solely of
player-targeting edges, the ensure pipeline is idempotent. The unconditional
claim fails: phase four may empty a relation list that phase three then
reseeds on the next run. -/
theorem claim_c3_ensure_idempotent (now1 now2 : String) (s : SaveFile)
    (hz : s.area_snapshot.zones ≠ []) (hc : s.area_snapshot.clock ≠ none)
    (hpool : (poolIds s.role_pool).Nodup)
    (hnpc : ((syncPairs s.area_snapshot.zones s.area_snapshot.sub_zones).map
        (fun p => p.2.npc_id)).Nodup)
    (hpp : s.player_static_data.player_id ∉ poolIds s.role_pool)
    (hpn : s.player_static_data.player_id
        ∉ (syncPairs s.area_snapshot.zones s.area_snapshot.sub_zones).map
            (fun p => p.2.npc_id))
    (hrel : ∀ r ∈ s.role_pool, r.relations ≠ [] →
        r.relations.filter
          (fun e => e.target_role_id != s.player_static_data.player_id) ≠ []) :
    ensureAreaSnapshot now2 (ensureAreaSnapshot now1 s) = ensureAreaSnapshot now1 s := by
  rw [ensureAreaSnapshot_eq_active now1 s hz hc]
  obtain ⟨hpz, hpc, hpcz, hpcs, hpsub, hpsess, hppl, hpm⟩ := ensureRolePool_proj now1 s
  rw [ensureAreaSnapshot_eq_active now2 (ensureRolePoolFromArea now1 s)
    (by rw [hpz]; exact hz) (by rw [hpc]; exact hc)]
  exact ensureRolePool_idem now1 now2 s hpool hnpc hpp hpn hrel

theorem claim_c3_ensure_idempotent_witness :
    ensureAreaSnapshot "t1" (ensureAreaSnapshot "t0" c6SeedSave)
      = ensureAreaSnapshot "t0" c6SeedSave :=
  claim_c3_ensure_idempotent "t0" "t1" c6SeedSave
    (by simp [c6SeedSave]) (by simp [c6SeedSave])
    (by simp [c6SeedSave, poolIds]) (by decide)
    (by simp [c6SeedSave, poolIds]) (by decide)
    (by simp [c6SeedSave])
